import Mathlib

/-!
Station reservation server (`server.js`).

A shallow embedding of the in-memory reservation server: the station catalog, the two
reservation maps, the per-address rate limiter and the four HTTP handlers, followed by
the properties established about them.
-/

namespace Party

/-- Values that can reach the handlers from a parsed JSON body or from the request's
address lookup. Numbers are restricted to integers and objects are compared by reference,
so that structural equality coincides with JavaScript's `SameValueZero` and `===`. -/
inductive JsValue where
  | undefined
  | null
  | bool (b : Bool)
  | number (n : Int)
  | string (s : String)
  | object (ref : Nat)
  deriving DecidableEq

/-- Liste des stations de métro parisiennes (sélection représentative): `metroStations`. -/
def metroStations : List String := [
  -- Ligne 1
  "Château de Vincennes", "Bérault", "Saint-Mandé", "Nation", "Reuilly - Diderot",
  "Gare de Lyon", "Châtelet", "Louvre - Rivoli", "Palais-Royal - Musée du Louvre",
  "Tuileries", "Concorde", "Champs-Élysées - Clemenceau", "George V", "Charles de Gaulle - Étoile",
  "Argentine", "Porte Maillot", "Les Sablons", "Pont de Neuilly", "Esplanade de La Défense",
  "La Défense",
  -- Ligne 4
  "Porte de Clignancourt", "Simplon", "Marcadet - Poissonniers", "Château Rouge",
  "Barbès - Rochechouart", "Gare du Nord", "Gare de l'Est", "République", "Hôtel de Ville",
  "Cité", "Saint-Michel", "Odéon", "Saint-Germain-des-Prés", "Saint-Sulpice",
  "Saint-Placide", "Montparnasse - Bienvenüe", "Vavin", "Raspail", "Denfert-Rochereau",
  "Mouton-Duvernet", "Alésia", "Porte d'Orléans",
  -- Ligne 6
  "Charles de Gaulle - Étoile", "Kléber", "Boissière", "Trocadéro", "Passy", "Bir-Hakeim",
  "Dupleix", "La Motte-Picquet - Grenelle", "Cambronne", "Sèvres - Lecourbe",
  "Pasteur", "Montparnasse - Bienvenüe", "Edgar Quinet", "Raspail", "Denfert-Rochereau",
  "Saint-Jacques", "Glacière", "Corvisart", "Place d'Italie", "Nationale", "Chevaleret",
  "Quai de la Gare", "Bercy", "Dugommier", "Daumesnil", "Bel-Air", "Picpus", "Nation",
  -- Ligne 9
  "Pont de Sèvres", "Billancourt", "Marcel Sembat", "Pont de Sèvres", "Exelmans",
  "Michel-Ange - Molitor", "Michel-Ange - Auteuil", "Jasmin", "Ranelagh", "La Muette",
  "Rue de la Pompe", "Trocadéro", "Iéna", "Alma - Marceau", "Franklin D. Roosevelt",
  "Chaussée d'Antin - La Fayette", "Richelieu - Drouot", "Grands Boulevards",
  "Bonne Nouvelle", "Strasbourg - Saint-Denis", "République", "Oberkampf",
  "Saint-Ambroise", "Voltaire", "Charonne", "Rue des Boulets", "Nation",
  "Buzenval", "Maraîchers", "Porte de Montreuil", "Robespierre", "Croix de Chavaux",
  "Mairie de Montreuil",
  -- Ligne 14
  "Saint-Lazare", "Châtelet", "Gare de Lyon", "Bercy", "Cour Saint-Émilion",
  "Bibliothèque François Mitterrand", "Olympiades",
  -- Stations emblématiques d'autres lignes
  "Pigalle", "Abbesses", "Anvers", "Opéra", "Bastille", "Père Lachaise",
  "Belleville", "Ménilmontant", "Invalides", "École Militaire", "Pont Neuf",
  "Châtelet - Les Halles", "Réaumur - Sébastopol", "Arts et Métiers",
  "Temple", "Filles du Calvaire", "Saint-Paul", "Pont Marie", "Sully - Morland",
  "Mabillon", "Cluny - La Sorbonne", "Maubert - Mutualité", "Cardinal Lemoine",
  "Jussieu", "Place Monge", "Censier - Daubenton", "Les Gobelins",
  "Place d'Italie", "Tolbiac", "Maison Blanche", "Porte d'Italie"
]

/-- `Array.prototype.includes` on an array of strings, applied to an arbitrary value. -/
def includes : List String → JsValue → Bool
  | [], _ => false
  | x :: xs, v => if JsValue.string x = v then true else includes xs v

/-! ## JavaScript `Map` -/

/-- A JavaScript `Map` with keys compared by `SameValueZero`: its entries in insertion
order. -/
abbrev JsMap (β : Type) := List (JsValue × β)

namespace JsMap

/-- The entry stored under a key, if there is one. -/
def find {β : Type} : JsMap β → JsValue → Option β
  | [], _ => none
  | (k', v) :: m, k => if k' = k then some v else find m k

/-- `Map.prototype.has`. -/
def has {β : Type} (m : JsMap β) (k : JsValue) : Bool :=
  (find m k).isSome

/-- `Map.prototype.get` on a map of values: `undefined` when the key is absent. -/
def get (m : JsMap JsValue) (k : JsValue) : JsValue :=
  match find m k with
  | some v => v
  | none => JsValue.undefined

/-- `Map.prototype.set`: overwrite in place when the key is present, append otherwise. -/
def set {β : Type} : JsMap β → JsValue → β → JsMap β
  | [], k, v => [(k, v)]
  | (k', v') :: m, k, v => if k' = k then (k, v) :: m else (k', v') :: set m k v

/-- `Map.prototype.delete`. -/
def delete {β : Type} : JsMap β → JsValue → JsMap β
  | [], _ => []
  | (k', v') :: m, k => if k' = k then delete m k else (k', v') :: delete m k

/-- `Map.prototype.clear`. -/
def clear {β : Type} (_m : JsMap β) : JsMap β := []

end JsMap

/-! ## Rate limiter -/

/-- Options passed to `new RateLimiterMemory(...)`: `duration` is in seconds. -/
structure RateLimiterOpts where
  points : Nat
  duration : Nat
  deriving DecidableEq

/-- Rate limiting par IP: 1 sélection par IP, reset après 24h. -/
def rateLimiter : RateLimiterOpts :=
  { points := 1, duration := 86400 }

/-- What the limiter remembers about one identity; `windowResetAt` is a time in
milliseconds. -/
structure RateLimitEntry where
  remainingPoints : Nat
  windowResetAt : Nat
  deriving DecidableEq

/-- Modelled from the spec: `RateLimiterMemory.consume` of the `rate-limiter-flexible`
package, which the repository imports but does not contain. Each identity has a budget of
`points`, replenished `duration` seconds after the first consumption of the window.
A call with no points left inside the window is rejected and changes nothing; a call
after the window has elapsed starts from the full budget again. The result is
`true` when the promise resolves and `false` when it rejects. -/
def consume (opts : RateLimiterOpts) (now : Nat) (key : JsValue)
    (entries : JsMap RateLimitEntry) : Bool × JsMap RateLimitEntry :=
  let fresh : RateLimitEntry :=
    { remainingPoints := opts.points, windowResetAt := now + opts.duration * 1000 }
  let e : RateLimitEntry :=
    match JsMap.find entries key with
    | none => fresh
    | some e => if e.windowResetAt ≤ now then fresh else e
  if e.remainingPoints = 0 then (false, entries)
  else (true, JsMap.set entries key { e with remainingPoints := e.remainingPoints - 1 })

/-! ## Server state, responses and events -/

/-- Messages sent to every connected socket by `io.emit`. -/
inductive Event where
  | stationReserved (station : JsValue)
  | stationReleased (station : JsValue)
  | allStationsReleased
  deriving DecidableEq

/-- One call of `io.emit`, together with the contents of the two maps at the moment of
the call. -/
structure Emission where
  event : Event
  reservedStations : JsMap JsValue
  ipReservations : JsMap JsValue
  deriving DecidableEq

/-- The mutable state of the process. -/
structure State where
  /-- The map station -> IP. -/
  reservedStations : JsMap JsValue
  /-- The map IP -> station. -/
  ipReservations : JsMap JsValue
  /-- The storage of `rateLimiter`. -/
  limiter : JsMap RateLimitEntry
  /-- Every `io.emit` so far, oldest first. -/
  emitted : List Emission
  deriving DecidableEq

/-- The state at process start: `new Map()` twice, a fresh limiter, nothing emitted. -/
def State.initial : State :=
  { reservedStations := [], ipReservations := [], limiter := [], emitted := [] }

/-- One element of the array answered by `GET /api/stations`. -/
structure StationStatus where
  name : String
  reserved : Bool
  deriving DecidableEq

/-- The JSON bodies the handlers send. -/
inductive Body where
  | error (message : String)
  | success
  | successStation (station : JsValue)
  | stations (stationsStatus : List StationStatus)
  deriving DecidableEq

/-- An HTTP response: `res.status(code).json(body)`, with status 200 when `status` is not
called. -/
structure Response where
  status : Nat
  body : Body
  deriving DecidableEq

/-- The call `io.emit(event)`. -/
def ioEmit (ev : Event) (st : State) : State :=
  { st with emitted := st.emitted ++
      [{ event := ev, reservedStations := st.reservedStations,
         ipReservations := st.ipReservations }] }

/-! ## Handlers -/

/-- The handler of `GET /api/stations`. -/
def apiStations (st : State) : Response × State :=
  let stationsStatus := metroStations.map fun station =>
    ({ name := station, reserved := JsMap.has st.reservedStations (JsValue.string station) } :
      StationStatus)
  ({ status := 200, body := Body.stations stationsStatus }, st)

/-- The part of the `POST /api/reserve` handler that runs after `await
rateLimiter.consume(clientIP)` has resolved: the three checks, the two updates, the
notification and the answer. It runs without interruption. -/
def reserveChecked (station clientIP : JsValue) (st : State) : Response × State :=
  -- Vérifier si la station existe
  if !includes metroStations station then
    ({ status := 400, body := Body.error "Station invalide" }, st)
  -- Vérifier si l'IP a déjà réservé une station
  else if JsMap.has st.ipReservations clientIP then
    ({ status := 400, body := Body.error "Vous avez déjà sélectionné une station" }, st)
  -- Vérifier si la station est déjà réservée
  else if JsMap.has st.reservedStations station then
    ({ status := 400, body := Body.error "Station déjà prise" }, st)
  else
    -- Réserver la station
    let st1 := { st with reservedStations := JsMap.set st.reservedStations station clientIP }
    let st2 := { st1 with ipReservations := JsMap.set st1.ipReservations clientIP station }
    -- Notifier tous les clients connectés
    let st3 := ioEmit (Event.stationReserved station) st2
    ({ status := 200, body := Body.successStation station }, st3)

/-- The handler of `POST /api/reserve`, for a request received at time `now` (in
milliseconds) with body field `station`, from the address `clientIP` found by
`getRealIP`. -/
def apiReserve (now : Nat) (station clientIP : JsValue) (st : State) : Response × State :=
  -- Vérifier le rate limiting
  match consume rateLimiter now clientIP st.limiter with
  | (true, entries) => reserveChecked station clientIP { st with limiter := entries }
  | (false, entries) =>
    ({ status := 429, body := Body.error "Vous avez déjà fait votre sélection" },
      { st with limiter := entries })

/-- The handler of `POST /api/release` (admin uniquement). -/
def apiRelease (station adminKey : JsValue) (st : State) : Response × State :=
  if adminKey ≠ JsValue.string "reset123" then
    ({ status := 403, body := Body.error "Non autorisé" }, st)
  else if JsMap.has st.reservedStations station then
    let ip := JsMap.get st.reservedStations station
    let st1 := { st with reservedStations := JsMap.delete st.reservedStations station }
    let st2 := { st1 with ipReservations := JsMap.delete st1.ipReservations ip }
    let st3 := ioEmit (Event.stationReleased station) st2
    ({ status := 200, body := Body.success }, st3)
  else
    ({ status := 400, body := Body.error "Station non réservée" }, st)

/-- The handler of `POST /api/reset-all` (admin). -/
def apiResetAll (adminKey : JsValue) (st : State) : Response × State :=
  if adminKey ≠ JsValue.string "reset123" then
    ({ status := 403, body := Body.error "Non autorisé" }, st)
  else
    let st1 := { st with reservedStations := JsMap.clear st.reservedStations }
    let st2 := { st1 with ipReservations := JsMap.clear st1.ipReservations }
    let st3 := ioEmit Event.allStationsReleased st2
    ({ status := 200, body := Body.success }, st3)

/-! ## Requests and runs -/

/-- A request to one of the four API routes, with the data the handler reads from it: the
fields of the parsed JSON body (`undefined` when a field is missing), the address found by
`getRealIP` and, for a reservation, the time at which the limiter is consulted. -/
inductive Request where
  | stations
  | reserve (now : Nat) (station clientIP : JsValue)
  | release (station adminKey : JsValue)
  | resetAll (adminKey : JsValue)
  deriving DecidableEq

/-- Dispatch of a request to its handler. -/
def handle : Request → State → Response × State
  | Request.stations, st => apiStations st
  | Request.reserve now station clientIP, st => apiReserve now station clientIP st
  | Request.release station adminKey, st => apiRelease station adminKey st
  | Request.resetAll adminKey, st => apiResetAll adminKey st

/-- The responses to a sequence of requests handled one after the other, and the final
state. -/
def run : List Request → State → List Response × State
  | [], st => ([], st)
  | r :: rs, st =>
    ((handle r st).1 :: (run rs (handle r st).2).1, (run rs (handle r st).2).2)

/-! ## Predicates used in the statements -/

/-- The keys of a map, in insertion order. -/
def JsMap.keys {β : Type} (m : JsMap β) : List JsValue :=
  m.map Prod.fst

/-- The values of a map, in insertion order. -/
def JsMap.values {β : Type} (m : JsMap β) : List β :=
  m.map Prod.snd

/-- The value is the name of a station of `metroStations`. -/
def InCatalog (v : JsValue) : Prop :=
  ∃ name, name ∈ metroStations ∧ v = JsValue.string name

/-- The two maps are inverse to each other: a station is mapped to an address exactly
when that address is mapped to the station. -/
def Inverse (st : State) : Prop :=
  ∀ s ip, JsMap.find st.reservedStations s = some ip ↔
    JsMap.find st.ipReservations ip = some s

/-- Every key of `reservedStations` and every value of `ipReservations` is a catalog
station. -/
def CatalogMembers (st : State) : Prop :=
  (∀ s ∈ JsMap.keys st.reservedStations, InCatalog s) ∧
  (∀ s ∈ JsMap.values st.ipReservations, InCatalog s)

/-- The answer to a successful reservation of `station`. -/
def reservedOk (station : JsValue) : Response :=
  { status := 200, body := Body.successStation station }

/-- The answer `InvalidSlot`. -/
def invalidSlot : Response :=
  { status := 400, body := Body.error "Station invalide" }

/-- The answer `IdentityAlreadyReserved`. -/
def identityAlreadyReserved : Response :=
  { status := 400, body := Body.error "Vous avez déjà sélectionné une station" }

/-- The answer `SlotTaken`. -/
def slotTaken : Response :=
  { status := 400, body := Body.error "Station déjà prise" }

/-- The answer `RateLimited`. -/
def rateLimited : Response :=
  { status := 429, body := Body.error "Vous avez déjà fait votre sélection" }

/-- The answer `NotReserved`. -/
def notReserved : Response :=
  { status := 400, body := Body.error "Station non réservée" }

/-- The answer `AuthError`. -/
def authError : Response :=
  { status := 403, body := Body.error "Non autorisé" }

/-- The answer of a successful admin operation. -/
def adminOk : Response :=
  { status := 200, body := Body.success }

/-- The configured admin key. -/
def validKey : JsValue :=
  JsValue.string "reset123"

/-- The two maps are well-formed JavaScript maps (no key occurs twice) and are inverse to
each other. -/
structure Consistent (st : State) : Prop where
  inverse : Inverse st
  stationsNodup : (JsMap.keys st.reservedStations).Nodup
  addressesNodup : (JsMap.keys st.ipReservations).Nodup

/-- Reserve requests for one station, one per caller: a caller is the time of its request
and its address. -/
def reserveRequests (station : JsValue) (callers : List (Nat × JsValue)) : List Request :=
  callers.map fun c => Request.reserve c.1 station c.2

/-- Reserve requests of one address, one per attempt: an attempt is the time of the
request and the station asked for. -/
def reserveAttempts (clientIP : JsValue) (attempts : List (Nat × JsValue)) : List Request :=
  attempts.map fun a => Request.reserve a.1 a.2 clientIP

/-- The check-and-update sections of reserve requests for one station whose
`rateLimiter.consume` has resolved, executed one after the other for the given addresses
in the given order. -/
def checkedSections (station : JsValue) : List JsValue → State → List Response × State
  | [], st => ([], st)
  | clientIP :: rest, st =>
    ((reserveChecked station clientIP st).1 ::
        (checkedSections station rest (reserveChecked station clientIP st).2).1,
      (checkedSections station rest (reserveChecked station clientIP st).2).2)

/-- Calls of `rateLimiter.consume` made one after the other: a call is the time at which
it is made and its key. The outcomes are returned in the order of the calls. -/
def consumeAll :
    List (Nat × JsValue) → JsMap RateLimitEntry → List Bool × JsMap RateLimitEntry
  | [], entries => ([], entries)
  | c :: cs, entries =>
    ((consume rateLimiter c.1 c.2 entries).1 ::
        (consumeAll cs (consume rateLimiter c.1 c.2 entries).2).1,
      (consumeAll cs (consume rateLimiter c.1 c.2 entries).2).2)

/-- At time `now` the rate-limit window of `key`, if it has one, has not elapsed. -/
def windowOpen (now : Nat) (key : JsValue) (entries : JsMap RateLimitEntry) : Bool :=
  match JsMap.find entries key with
  | none => true
  | some e => decide (now < e.windowResetAt)

/-- No reserve request of the run is made by an address whose rate-limit window has
elapsed by the time of the request. -/
def noWindowElapsed : List Request → State → Bool
  | [], _ => true
  | Request.reserve now station clientIP :: rs, st =>
    windowOpen now clientIP st.limiter &&
      noWindowElapsed rs (handle (Request.reserve now station clientIP) st).2
  | r :: rs, st => noWindowElapsed rs (handle r st).2

/-- Every identity known to the limiter has spent its whole budget. -/
def BudgetsSpent (entries : JsMap RateLimitEntry) : Prop :=
  ∀ key e, JsMap.find entries key = some e → e.remainingPoints = 0

/-- Every address that holds a reservation is known to the limiter. -/
def HoldersLimited (st : State) : Prop :=
  ∀ ip ∈ JsMap.keys st.ipReservations, ∃ e, JsMap.find st.limiter ip = some e

/-- At time `t` the limiter rejects `key`: it holds an entry for it with no points left
and a window that ends after `t`. -/
def Blocked (t : Nat) (key : JsValue) (entries : JsMap RateLimitEntry) : Prop :=
  ∃ e, JsMap.find entries key = some e ∧ e.remainingPoints = 0 ∧ t < e.windowResetAt

/-- The blocks of the array literal `metroStations`, as its comments delimit them: the
text of the comment that opens a block, and the names listed under it up to the next
comment. -/
def metroStationsBlocks : List (String × List String) := [
  ("Ligne 1", [
    "Château de Vincennes", "Bérault", "Saint-Mandé", "Nation", "Reuilly - Diderot",
    "Gare de Lyon", "Châtelet", "Louvre - Rivoli", "Palais-Royal - Musée du Louvre",
    "Tuileries", "Concorde", "Champs-Élysées - Clemenceau", "George V", "Charles de Gaulle - Étoile",
    "Argentine", "Porte Maillot", "Les Sablons", "Pont de Neuilly", "Esplanade de La Défense",
    "La Défense"
  ]),
  ("Ligne 4", [
    "Porte de Clignancourt", "Simplon", "Marcadet - Poissonniers", "Château Rouge",
    "Barbès - Rochechouart", "Gare du Nord", "Gare de l'Est", "République", "Hôtel de Ville",
    "Cité", "Saint-Michel", "Odéon", "Saint-Germain-des-Prés", "Saint-Sulpice",
    "Saint-Placide", "Montparnasse - Bienvenüe", "Vavin", "Raspail", "Denfert-Rochereau",
    "Mouton-Duvernet", "Alésia", "Porte d'Orléans"
  ]),
  ("Ligne 6", [
    "Charles de Gaulle - Étoile", "Kléber", "Boissière", "Trocadéro", "Passy", "Bir-Hakeim",
    "Dupleix", "La Motte-Picquet - Grenelle", "Cambronne", "Sèvres - Lecourbe",
    "Pasteur", "Montparnasse - Bienvenüe", "Edgar Quinet", "Raspail", "Denfert-Rochereau",
    "Saint-Jacques", "Glacière", "Corvisart", "Place d'Italie", "Nationale", "Chevaleret",
    "Quai de la Gare", "Bercy", "Dugommier", "Daumesnil", "Bel-Air", "Picpus", "Nation"
  ]),
  ("Ligne 9", [
    "Pont de Sèvres", "Billancourt", "Marcel Sembat", "Pont de Sèvres", "Exelmans",
    "Michel-Ange - Molitor", "Michel-Ange - Auteuil", "Jasmin", "Ranelagh", "La Muette",
    "Rue de la Pompe", "Trocadéro", "Iéna", "Alma - Marceau", "Franklin D. Roosevelt",
    "Chaussée d'Antin - La Fayette", "Richelieu - Drouot", "Grands Boulevards",
    "Bonne Nouvelle", "Strasbourg - Saint-Denis", "République", "Oberkampf",
    "Saint-Ambroise", "Voltaire", "Charonne", "Rue des Boulets", "Nation",
    "Buzenval", "Maraîchers", "Porte de Montreuil", "Robespierre", "Croix de Chavaux",
    "Mairie de Montreuil"
  ]),
  ("Ligne 14", [
    "Saint-Lazare", "Châtelet", "Gare de Lyon", "Bercy", "Cour Saint-Émilion",
    "Bibliothèque François Mitterrand", "Olympiades"
  ]),
  ("Stations emblématiques d'autres lignes", [
    "Pigalle", "Abbesses", "Anvers", "Opéra", "Bastille", "Père Lachaise",
    "Belleville", "Ménilmontant", "Invalides", "École Militaire", "Pont Neuf",
    "Châtelet - Les Halles", "Réaumur - Sébastopol", "Arts et Métiers",
    "Temple", "Filles du Calvaire", "Saint-Paul", "Pont Marie", "Sully - Morland",
    "Mabillon", "Cluny - La Sorbonne", "Maubert - Mutualité", "Cardinal Lemoine",
    "Jussieu", "Place Monge", "Censier - Daubenton", "Les Gobelins",
    "Place d'Italie", "Tolbiac", "Maison Blanche", "Porte d'Italie"
  ])
]

/-! ## Lemmas on maps -/

namespace JsMap

variable {β : Type}

theorem find_set_self (m : JsMap β) (k : JsValue) (v : β) : find (set m k v) k = some v := by
  induction m with
  | nil => simp [set, find]
  | cons e m ih =>
    obtain ⟨k', v'⟩ := e
    by_cases h : k' = k
    · simp [set, find, h]
    · simp [set, find, h, ih]

theorem find_set_ne (m : JsMap β) {k k' : JsValue} (v : β) (hne : k' ≠ k) :
    find (set m k v) k' = find m k' := by
  induction m with
  | nil => simp [set, find, Ne.symm hne]
  | cons e m ih =>
    obtain ⟨k₀, v₀⟩ := e
    by_cases h : k₀ = k
    · subst h
      simp [set, find, Ne.symm hne]
    · by_cases h' : k₀ = k'
      · subst h'
        simp [set, find, h]
      · simp [set, find, h, h', ih]

theorem find_delete_self (m : JsMap β) (k : JsValue) : find (delete m k) k = none := by
  induction m with
  | nil => simp [delete, find]
  | cons e m ih =>
    obtain ⟨k', v'⟩ := e
    by_cases h : k' = k
    · simp [delete, h, ih]
    · simp [delete, find, h, ih]

theorem find_delete_ne (m : JsMap β) {k k' : JsValue} (hne : k' ≠ k) :
    find (delete m k) k' = find m k' := by
  induction m with
  | nil => simp [delete, find]
  | cons e m ih =>
    obtain ⟨k₀, v₀⟩ := e
    by_cases h : k₀ = k
    · subst h
      simp [delete, find, Ne.symm hne, ih]
    · by_cases h' : k₀ = k'
      · subst h'
        simp [delete, find, h]
      · simp [delete, find, h, h', ih]

theorem has_eq_true_iff (m : JsMap β) (k : JsValue) :
    has m k = true ↔ ∃ v, find m k = some v := by
  simp [has, Option.isSome_iff_exists]

theorem has_eq_false_iff (m : JsMap β) (k : JsValue) :
    has m k = false ↔ find m k = none := by
  cases h : find m k <;> simp [has, h]

theorem find_eq_none_iff (m : JsMap β) (k : JsValue) : find m k = none ↔ k ∉ keys m := by
  induction m with
  | nil => simp [find, keys]
  | cons e m ih =>
    obtain ⟨k', v'⟩ := e
    by_cases h : k' = k
    · simp [find, keys, h]
    · have ih' : find m k = none ↔ k ∉ List.map Prod.fst m := ih
      simp [find, keys, h, ih', Ne.symm h]

theorem has_iff_mem_keys (m : JsMap β) (k : JsValue) : has m k = true ↔ k ∈ keys m := by
  have h := find_eq_none_iff m k
  cases hf : find m k with
  | none => simp [has, hf, h.mp hf]
  | some v =>
    have : k ∈ keys m := by
      by_contra hc
      rw [h.mpr hc] at hf
      cases hf
    simp [has, hf, this]

theorem mem_of_find (m : JsMap β) {k : JsValue} {v : β} (h : find m k = some v) :
    (k, v) ∈ m := by
  induction m with
  | nil => simp [find] at h
  | cons e m ih =>
    obtain ⟨k', v'⟩ := e
    by_cases hk : k' = k
    · simp [find, hk] at h
      simp [hk, h]
    · simp [find, hk] at h
      exact List.mem_cons_of_mem _ (ih h)

theorem find_of_mem (m : JsMap β) {k : JsValue} {v : β} (hnd : (keys m).Nodup)
    (h : (k, v) ∈ m) : find m k = some v := by
  induction m with
  | nil => simp at h
  | cons e m ih =>
    obtain ⟨k', v'⟩ := e
    have hnd' : k' ∉ keys m ∧ (keys m).Nodup := by simpa [keys] using hnd
    rcases List.mem_cons.mp h with heq | hmem
    · cases heq
      simp [find]
    · have hk : k' ≠ k := by
        intro hk
        subst hk
        exact hnd'.1 (List.mem_map.mpr ⟨(k', v), hmem, rfl⟩)
      simp [find, hk, ih hnd'.2 hmem]

theorem set_of_find_none (m : JsMap β) {k : JsValue} (v : β) (h : find m k = none) :
    set m k v = m ++ [(k, v)] := by
  induction m with
  | nil => simp [set]
  | cons e m ih =>
    obtain ⟨k', v'⟩ := e
    by_cases hk : k' = k
    · simp [find, hk] at h
    · simp [find, hk] at h
      simp [set, hk, ih h]

theorem mem_set (m : JsMap β) {k : JsValue} {v : β} {e : JsValue × β} (h : e ∈ set m k v) :
    e ∈ m ∨ e = (k, v) := by
  induction m with
  | nil => simpa [set] using h
  | cons e₀ m ih =>
    obtain ⟨k', v'⟩ := e₀
    by_cases hk : k' = k
    · simp [set, hk] at h
      rcases h with h | h
      · exact Or.inr h
      · exact Or.inl (List.mem_cons_of_mem _ h)
    · simp [set, hk] at h
      rcases h with h | h
      · exact Or.inl (by simp [h])
      · rcases ih h with h' | h'
        · exact Or.inl (List.mem_cons_of_mem _ h')
        · exact Or.inr h'

theorem mem_delete (m : JsMap β) {k : JsValue} {e : JsValue × β} (h : e ∈ delete m k) :
    e ∈ m := by
  induction m with
  | nil => simp [delete] at h
  | cons e₀ m ih =>
    obtain ⟨k', v'⟩ := e₀
    by_cases hk : k' = k
    · simp [delete, hk] at h
      exact List.mem_cons_of_mem _ (ih h)
    · simp [delete, hk] at h
      rcases h with h | h
      · simp [h]
      · exact List.mem_cons_of_mem _ (ih h)

theorem keys_set_nodup (m : JsMap β) (k : JsValue) (v : β) (h : (keys m).Nodup) :
    (keys (set m k v)).Nodup := by
  induction m with
  | nil => simp [set, keys]
  | cons e m ih =>
    obtain ⟨k', v'⟩ := e
    have hnd : k' ∉ keys m ∧ (keys m).Nodup := by simpa [keys] using h
    by_cases hk : k' = k
    · subst hk
      simpa [set, keys] using h
    · have hnot : k' ∉ keys (set m k v) := by
        intro hmem
        obtain ⟨e, he, hfst⟩ := List.mem_map.mp hmem
        rcases mem_set m he with h' | h'
        · exact hnd.1 (List.mem_map.mpr ⟨e, h', hfst⟩)
        · subst h'
          exact hk hfst.symm
      have := ih hnd.2
      simp only [set, hk, if_false, keys, List.map_cons, List.nodup_cons]
      exact ⟨hnot, this⟩

theorem keys_delete_nodup (m : JsMap β) (k : JsValue) (h : (keys m).Nodup) :
    (keys (delete m k)).Nodup := by
  induction m with
  | nil => simp [delete, keys]
  | cons e m ih =>
    obtain ⟨k', v'⟩ := e
    have hnd : k' ∉ keys m ∧ (keys m).Nodup := by simpa [keys] using h
    by_cases hk : k' = k
    · simpa [delete, hk] using ih hnd.2
    · have hnot : k' ∉ keys (delete m k) := by
        intro hmem
        obtain ⟨e, he, hfst⟩ := List.mem_map.mp hmem
        exact hnd.1 (List.mem_map.mpr ⟨e, mem_delete m he, hfst⟩)
      have := ih hnd.2
      simp only [delete, hk, if_false, keys, List.map_cons, List.nodup_cons]
      exact ⟨hnot, this⟩

end JsMap

theorem includes_iff (xs : List String) (v : JsValue) :
    includes xs v = true ↔ ∃ name, name ∈ xs ∧ v = JsValue.string name := by
  induction xs with
  | nil => simp [includes]
  | cons x xs ih =>
    by_cases h : JsValue.string x = v
    · simp only [includes, h, if_true, true_iff]
      exact ⟨x, by simp, h.symm⟩
    · simp only [includes, h, if_false, ih]
      constructor
      · rintro ⟨n, hn, hv⟩
        exact ⟨n, List.mem_cons_of_mem _ hn, hv⟩
      · rintro ⟨n, hn, hv⟩
        rcases List.mem_cons.mp hn with rfl | hn'
        · exact absurd hv.symm h
        · exact ⟨n, hn', hv⟩

theorem includes_metroStations_iff (v : JsValue) :
    includes metroStations v = true ↔ InCatalog v :=
  includes_iff metroStations v

/-! ## The handlers, case by case -/

theorem reserveChecked_invalid (station clientIP : JsValue) (st : State)
    (h : includes metroStations station = false) :
    reserveChecked station clientIP st = (invalidSlot, st) := by
  simp [reserveChecked, h, invalidSlot]

theorem reserveChecked_identity (station clientIP : JsValue) (st : State)
    (h : includes metroStations station = true)
    (hip : JsMap.has st.ipReservations clientIP = true) :
    reserveChecked station clientIP st = (identityAlreadyReserved, st) := by
  simp [reserveChecked, h, hip, identityAlreadyReserved]

theorem reserveChecked_taken (station clientIP : JsValue) (st : State)
    (h : includes metroStations station = true)
    (hip : JsMap.has st.ipReservations clientIP = false)
    (hs : JsMap.has st.reservedStations station = true) :
    reserveChecked station clientIP st = (slotTaken, st) := by
  simp [reserveChecked, h, hip, hs, slotTaken]

theorem reserveChecked_ok (station clientIP : JsValue) (st : State)
    (h : includes metroStations station = true)
    (hip : JsMap.has st.ipReservations clientIP = false)
    (hs : JsMap.has st.reservedStations station = false) :
    reserveChecked station clientIP st =
      (reservedOk station,
        ioEmit (Event.stationReserved station)
          { st with
            reservedStations := JsMap.set st.reservedStations station clientIP
            ipReservations := JsMap.set st.ipReservations clientIP station }) := by
  simp [reserveChecked, h, hip, hs, reservedOk]

theorem apiReserve_pass {now : Nat} {station clientIP : JsValue} {st : State}
    (h : (consume rateLimiter now clientIP st.limiter).1 = true) :
    apiReserve now station clientIP st =
      reserveChecked station clientIP
        { st with limiter := (consume rateLimiter now clientIP st.limiter).2 } := by
  unfold apiReserve
  split
  · next entries heq => simp [heq]
  · next entries heq => simp [heq] at h

theorem apiReserve_reject {now : Nat} {clientIP : JsValue} (station : JsValue) {st : State}
    (h : (consume rateLimiter now clientIP st.limiter).1 = false) :
    apiReserve now station clientIP st =
      (rateLimited, { st with limiter := (consume rateLimiter now clientIP st.limiter).2 }) := by
  unfold apiReserve
  split
  · next entries heq => simp [heq] at h
  · next entries heq => simp [heq, rateLimited]

theorem apiReserve_invalid {now : Nat} {station clientIP : JsValue} {st : State}
    (hpass : (consume rateLimiter now clientIP st.limiter).1 = true)
    (h : includes metroStations station = false) :
    apiReserve now station clientIP st =
      (invalidSlot, { st with limiter := (consume rateLimiter now clientIP st.limiter).2 }) := by
  rw [apiReserve_pass hpass, reserveChecked_invalid _ _ _ h]

theorem apiReserve_identity {now : Nat} {station clientIP : JsValue} {st : State}
    (hpass : (consume rateLimiter now clientIP st.limiter).1 = true)
    (h : includes metroStations station = true)
    (hip : JsMap.has st.ipReservations clientIP = true) :
    apiReserve now station clientIP st =
      (identityAlreadyReserved,
        { st with limiter := (consume rateLimiter now clientIP st.limiter).2 }) := by
  rw [apiReserve_pass hpass]
  exact reserveChecked_identity station clientIP
    { st with limiter := (consume rateLimiter now clientIP st.limiter).2 } h hip

theorem apiReserve_taken {now : Nat} {station clientIP : JsValue} {st : State}
    (hpass : (consume rateLimiter now clientIP st.limiter).1 = true)
    (h : includes metroStations station = true)
    (hip : JsMap.has st.ipReservations clientIP = false)
    (hs : JsMap.has st.reservedStations station = true) :
    apiReserve now station clientIP st =
      (slotTaken, { st with limiter := (consume rateLimiter now clientIP st.limiter).2 }) := by
  rw [apiReserve_pass hpass]
  exact reserveChecked_taken station clientIP
    { st with limiter := (consume rateLimiter now clientIP st.limiter).2 } h hip hs

theorem apiReserve_ok {now : Nat} {station clientIP : JsValue} {st : State}
    (hpass : (consume rateLimiter now clientIP st.limiter).1 = true)
    (h : includes metroStations station = true)
    (hip : JsMap.has st.ipReservations clientIP = false)
    (hs : JsMap.has st.reservedStations station = false) :
    apiReserve now station clientIP st =
      (reservedOk station,
        ioEmit (Event.stationReserved station)
          { st with
            reservedStations := JsMap.set st.reservedStations station clientIP
            ipReservations := JsMap.set st.ipReservations clientIP station
            limiter := (consume rateLimiter now clientIP st.limiter).2 }) := by
  rw [apiReserve_pass hpass]
  exact reserveChecked_ok station clientIP
    { st with limiter := (consume rateLimiter now clientIP st.limiter).2 } h hip hs

theorem has_of_mem_keys {β : Type} {m : JsMap β} {k : JsValue} (h : k ∈ JsMap.keys m) :
    JsMap.has m k = true :=
  (JsMap.has_iff_mem_keys m k).mpr h

theorem has_of_not_mem_keys {β : Type} {m : JsMap β} {k : JsValue} (h : k ∉ JsMap.keys m) :
    JsMap.has m k = false :=
  (JsMap.has_eq_false_iff m k).mpr ((JsMap.find_eq_none_iff m k).mpr h)

theorem includes_of_inCatalog {v : JsValue} (h : InCatalog v) :
    includes metroStations v = true :=
  (includes_metroStations_iff v).mpr h

theorem includes_of_not_inCatalog {v : JsValue} (h : ¬ InCatalog v) :
    includes metroStations v = false := by
  cases hi : includes metroStations v with
  | false => rfl
  | true => exact absurd ((includes_metroStations_iff v).mp hi) h

theorem apiRelease_unauthorized {adminKey : JsValue} (station : JsValue) (st : State)
    (h : adminKey ≠ validKey) : apiRelease station adminKey st = (authError, st) := by
  have h' : adminKey ≠ JsValue.string "reset123" := h
  simp [apiRelease, h', authError]

theorem apiRelease_notReserved {station : JsValue} {st : State}
    (h : JsMap.find st.reservedStations station = none) :
    apiRelease station validKey st = (notReserved, st) := by
  simp [apiRelease, validKey, JsMap.has, h, notReserved]

theorem apiRelease_ok {station ip : JsValue} {st : State}
    (h : JsMap.find st.reservedStations station = some ip) :
    apiRelease station validKey st =
      (adminOk,
        ioEmit (Event.stationReleased station)
          { st with
            reservedStations := JsMap.delete st.reservedStations station
            ipReservations := JsMap.delete st.ipReservations ip }) := by
  simp [apiRelease, validKey, JsMap.has, JsMap.get, h, adminOk]

theorem apiResetAll_unauthorized {adminKey : JsValue} (st : State)
    (h : adminKey ≠ validKey) : apiResetAll adminKey st = (authError, st) := by
  have h' : adminKey ≠ JsValue.string "reset123" := h
  simp [apiResetAll, h', authError]

theorem apiResetAll_ok (st : State) :
    apiResetAll validKey st =
      (adminOk,
        ioEmit Event.allStationsReleased { st with reservedStations := [], ipReservations := [] })
    := by
  simp [apiResetAll, validKey, JsMap.clear, adminOk]

/-! ## Effect of one request on the two maps -/

theorem reserveChecked_maps (station clientIP : JsValue) (st : State) :
    ((reserveChecked station clientIP st).2.reservedStations = st.reservedStations ∧
      (reserveChecked station clientIP st).2.ipReservations = st.ipReservations) ∨
    (InCatalog station ∧ JsMap.find st.reservedStations station = none ∧
      JsMap.find st.ipReservations clientIP = none ∧
      (reserveChecked station clientIP st).2.reservedStations =
        JsMap.set st.reservedStations station clientIP ∧
      (reserveChecked station clientIP st).2.ipReservations =
        JsMap.set st.ipReservations clientIP station) := by
  cases hi : includes metroStations station with
  | false => rw [reserveChecked_invalid _ _ _ hi]; exact Or.inl ⟨rfl, rfl⟩
  | true =>
    cases hip : JsMap.has st.ipReservations clientIP with
    | true => rw [reserveChecked_identity _ _ _ hi hip]; exact Or.inl ⟨rfl, rfl⟩
    | false =>
      cases hs : JsMap.has st.reservedStations station with
      | true => rw [reserveChecked_taken _ _ _ hi hip hs]; exact Or.inl ⟨rfl, rfl⟩
      | false =>
        rw [reserveChecked_ok _ _ _ hi hip hs]
        exact Or.inr ⟨(includes_metroStations_iff _).mp hi,
          (JsMap.has_eq_false_iff _ _).mp hs, (JsMap.has_eq_false_iff _ _).mp hip, rfl, rfl⟩

/-- Either nothing changed, or one pair was added for a free catalog station and an
address without reservation, or the pair of a reserved station was removed, or both maps
were emptied. -/
theorem handle_maps (r : Request) (st : State) :
    ((handle r st).2.reservedStations = st.reservedStations ∧
      (handle r st).2.ipReservations = st.ipReservations) ∨
    (∃ s ip, InCatalog s ∧ JsMap.find st.reservedStations s = none ∧
      JsMap.find st.ipReservations ip = none ∧
      (handle r st).2.reservedStations = JsMap.set st.reservedStations s ip ∧
      (handle r st).2.ipReservations = JsMap.set st.ipReservations ip s) ∨
    (∃ s ip, JsMap.find st.reservedStations s = some ip ∧
      (handle r st).2.reservedStations = JsMap.delete st.reservedStations s ∧
      (handle r st).2.ipReservations = JsMap.delete st.ipReservations ip) ∨
    ((handle r st).2.reservedStations = [] ∧ (handle r st).2.ipReservations = []) := by
  cases r with
  | stations => exact Or.inl ⟨rfl, rfl⟩
  | reserve now station clientIP =>
    simp only [handle]
    cases hc : (consume rateLimiter now clientIP st.limiter).1 with
    | false => rw [apiReserve_reject station hc]; exact Or.inl ⟨rfl, rfl⟩
    | true =>
      rw [apiReserve_pass hc]
      rcases reserveChecked_maps station clientIP
        { st with limiter := (consume rateLimiter now clientIP st.limiter).2 } with h | h
      · exact Or.inl h
      · exact Or.inr (Or.inl ⟨station, clientIP, h⟩)
  | release station adminKey =>
    simp only [handle]
    by_cases hk : adminKey = validKey
    · subst hk
      cases hf : JsMap.find st.reservedStations station with
      | none => rw [apiRelease_notReserved hf]; exact Or.inl ⟨rfl, rfl⟩
      | some ip =>
        rw [apiRelease_ok hf]
        exact Or.inr (Or.inr (Or.inl ⟨station, ip, hf, rfl, rfl⟩))
    · rw [apiRelease_unauthorized station st hk]; exact Or.inl ⟨rfl, rfl⟩
  | resetAll adminKey =>
    simp only [handle]
    by_cases hk : adminKey = validKey
    · subst hk
      rw [apiResetAll_ok]
      exact Or.inr (Or.inr (Or.inr ⟨rfl, rfl⟩))
    · rw [apiResetAll_unauthorized st hk]; exact Or.inl ⟨rfl, rfl⟩

theorem inverse_set {rs ipr : JsMap JsValue} {s ip : JsValue}
    (hinv : ∀ a b, JsMap.find rs a = some b ↔ JsMap.find ipr b = some a)
    (hs : JsMap.find rs s = none) (hip : JsMap.find ipr ip = none) (a b : JsValue) :
    JsMap.find (JsMap.set rs s ip) a = some b ↔ JsMap.find (JsMap.set ipr ip s) b = some a := by
  by_cases ha : a = s
  · subst ha
    rw [JsMap.find_set_self]
    by_cases hb : b = ip
    · subst hb
      rw [JsMap.find_set_self]
      simp
    · rw [JsMap.find_set_ne _ _ hb]
      constructor
      · intro h
        exact absurd (Option.some.inj h).symm hb
      · intro h
        rw [(hinv a b).mpr h] at hs
        cases hs
  · rw [JsMap.find_set_ne _ _ ha]
    by_cases hb : b = ip
    · subst hb
      rw [JsMap.find_set_self]
      constructor
      · intro h
        rw [(hinv a b).mp h] at hip
        cases hip
      · intro h
        exact absurd (Option.some.inj h).symm ha
    · rw [JsMap.find_set_ne _ _ hb]
      exact hinv a b

theorem inverse_delete {rs ipr : JsMap JsValue} {s ip : JsValue}
    (hinv : ∀ a b, JsMap.find rs a = some b ↔ JsMap.find ipr b = some a)
    (hs : JsMap.find rs s = some ip) (a b : JsValue) :
    JsMap.find (JsMap.delete rs s) a = some b ↔
      JsMap.find (JsMap.delete ipr ip) b = some a := by
  have hip : JsMap.find ipr ip = some s := (hinv s ip).mp hs
  by_cases ha : a = s
  · subst ha
    rw [JsMap.find_delete_self]
    by_cases hb : b = ip
    · subst hb
      rw [JsMap.find_delete_self]
      simp
    · rw [JsMap.find_delete_ne _ hb]
      constructor
      · intro h
        cases h
      · intro h
        rw [(hinv a b).mpr h] at hs
        exact absurd (Option.some.inj hs) hb
  · rw [JsMap.find_delete_ne _ ha]
    by_cases hb : b = ip
    · subst hb
      rw [JsMap.find_delete_self]
      constructor
      · intro h
        rw [(hinv a b).mp h] at hip
        exact absurd (Option.some.inj hip) ha
      · intro h
        cases h
    · rw [JsMap.find_delete_ne _ hb]
      exact hinv a b

theorem consistent_initial : Consistent State.initial :=
  ⟨fun s ip => by simp [State.initial, JsMap.find], by simp [State.initial, JsMap.keys],
    by simp [State.initial, JsMap.keys]⟩

theorem consistent_handle (r : Request) {st : State} (h : Consistent st) :
    Consistent (handle r st).2 := by
  rcases handle_maps r st with ⟨h1, h2⟩ | ⟨s, ip, _, hs, hip, h1, h2⟩ | ⟨s, ip, hs, h1, h2⟩ |
    ⟨h1, h2⟩
  · exact ⟨by unfold Inverse; rw [h1, h2]; exact h.inverse, by rw [h1]; exact h.stationsNodup,
      by rw [h2]; exact h.addressesNodup⟩
  · exact ⟨by unfold Inverse; rw [h1, h2]; exact inverse_set h.inverse hs hip,
      by rw [h1]; exact JsMap.keys_set_nodup _ _ _ h.stationsNodup,
      by rw [h2]; exact JsMap.keys_set_nodup _ _ _ h.addressesNodup⟩
  · exact ⟨by unfold Inverse; rw [h1, h2]; exact inverse_delete h.inverse hs,
      by rw [h1]; exact JsMap.keys_delete_nodup _ _ h.stationsNodup,
      by rw [h2]; exact JsMap.keys_delete_nodup _ _ h.addressesNodup⟩
  · exact ⟨by unfold Inverse; rw [h1, h2]; intro s ip; simp [JsMap.find],
      by rw [h1]; simp [JsMap.keys], by rw [h2]; simp [JsMap.keys]⟩

theorem consistent_run (reqs : List Request) {st : State} (h : Consistent st) :
    Consistent (run reqs st).2 := by
  induction reqs generalizing st with
  | nil => exact h
  | cons r rs ih => exact ih (consistent_handle r h)

theorem catalogMembers_handle (r : Request) {st : State} (h : CatalogMembers st) :
    CatalogMembers (handle r st).2 := by
  obtain ⟨hk, hv⟩ := h
  rcases handle_maps r st with ⟨h1, h2⟩ | ⟨s, ip, hcat, _, _, h1, h2⟩ | ⟨s, ip, _, h1, h2⟩ |
    ⟨h1, h2⟩
  · exact ⟨by rw [h1]; exact hk, by rw [h2]; exact hv⟩
  · constructor
    · rw [h1]
      intro k hmem
      obtain ⟨e, he, rfl⟩ := List.mem_map.mp hmem
      rcases JsMap.mem_set _ he with h' | h'
      · exact hk _ (List.mem_map.mpr ⟨e, h', rfl⟩)
      · subst h'; exact hcat
    · rw [h2]
      intro k hmem
      obtain ⟨e, he, rfl⟩ := List.mem_map.mp hmem
      rcases JsMap.mem_set _ he with h' | h'
      · exact hv _ (List.mem_map.mpr ⟨e, h', rfl⟩)
      · subst h'; exact hcat
  · constructor
    · rw [h1]
      intro k hmem
      obtain ⟨e, he, rfl⟩ := List.mem_map.mp hmem
      exact hk _ (List.mem_map.mpr ⟨e, JsMap.mem_delete _ he, rfl⟩)
    · rw [h2]
      intro k hmem
      obtain ⟨e, he, rfl⟩ := List.mem_map.mp hmem
      exact hv _ (List.mem_map.mpr ⟨e, JsMap.mem_delete _ he, rfl⟩)
  · exact ⟨by rw [h1]; simp [JsMap.keys], by rw [h2]; simp [JsMap.values]⟩

theorem catalogMembers_run (reqs : List Request) {st : State} (h : CatalogMembers st) :
    CatalogMembers (run reqs st).2 := by
  induction reqs generalizing st with
  | nil => exact h
  | cons r rs ih => exact ih (catalogMembers_handle r h)

theorem consistent_values_nodup {st : State} (h : Consistent st) :
    (JsMap.values st.reservedStations).Nodup ∧ (JsMap.values st.ipReservations).Nodup := by
  constructor
  · refine List.Nodup.map_on ?_ (List.Nodup.of_map _ h.stationsNodup)
    rintro ⟨k₁, v₁⟩ h₁ ⟨k₂, v₂⟩ h₂ hv
    have hv' : v₁ = v₂ := hv
    subst hv'
    have e₁ := (h.inverse k₁ v₁).mp (JsMap.find_of_mem _ h.stationsNodup h₁)
    have e₂ := (h.inverse k₂ v₁).mp (JsMap.find_of_mem _ h.stationsNodup h₂)
    rw [e₁] at e₂
    rw [Option.some.inj e₂]
  · refine List.Nodup.map_on ?_ (List.Nodup.of_map _ h.addressesNodup)
    rintro ⟨k₁, v₁⟩ h₁ ⟨k₂, v₂⟩ h₂ hv
    have hv' : v₁ = v₂ := hv
    subst hv'
    have e₁ := (h.inverse v₁ k₁).mpr (JsMap.find_of_mem _ h.addressesNodup h₁)
    have e₂ := (h.inverse v₁ k₂).mpr (JsMap.find_of_mem _ h.addressesNodup h₂)
    rw [e₁] at e₂
    rw [Option.some.inj e₂]

theorem consistent_mem_iff {st : State} (h : Consistent st) (s ip : JsValue) :
    (s, ip) ∈ st.reservedStations ↔ (ip, s) ∈ st.ipReservations := by
  constructor
  · intro hm
    exact JsMap.mem_of_find _ ((h.inverse s ip).mp (JsMap.find_of_mem _ h.stationsNodup hm))
  · intro hm
    exact JsMap.mem_of_find _ ((h.inverse s ip).mpr (JsMap.find_of_mem _ h.addressesNodup hm))

/-! ## The claims -/

/-- C1, bijection invariant. After any sequence of requests handled from the initial
state, `reservedStations` maps a station to an address exactly when `ipReservations` maps
that address to the station, both as lookups and as stored entries; no key is stored
twice in either map, and no address (resp. station) is the value of two entries. -/
theorem bijection_invariant (reqs : List Request) :
    (∀ s ip, JsMap.find (run reqs State.initial).2.reservedStations s = some ip ↔
      JsMap.find (run reqs State.initial).2.ipReservations ip = some s) ∧
    (∀ s ip, (s, ip) ∈ (run reqs State.initial).2.reservedStations ↔
      (ip, s) ∈ (run reqs State.initial).2.ipReservations) ∧
    (JsMap.keys (run reqs State.initial).2.reservedStations).Nodup ∧
    (JsMap.values (run reqs State.initial).2.reservedStations).Nodup ∧
    (JsMap.keys (run reqs State.initial).2.ipReservations).Nodup ∧
    (JsMap.values (run reqs State.initial).2.ipReservations).Nodup := by
  have h := consistent_run reqs consistent_initial
  exact ⟨h.inverse, consistent_mem_iff h, h.stationsNodup, (consistent_values_nodup h).1,
    h.addressesNodup, (consistent_values_nodup h).2⟩

/-- C2, order of the checks. For a reserve request that passes the rate limiter: a station
outside `metroStations` gives `Station invalide` whatever the maps hold; otherwise an
address that already holds a reservation gives `Vous avez déjà sélectionné une station`,
even if the station is taken as well; otherwise a reserved station gives
`Station déjà prise`; otherwise the request succeeds. -/
theorem reserve_check_order (now : Nat) (station clientIP : JsValue) (st : State)
    (hpass : (consume rateLimiter now clientIP st.limiter).1 = true) :
    (¬ InCatalog station →
      (apiReserve now station clientIP st).1 = invalidSlot) ∧
    (InCatalog station → clientIP ∈ JsMap.keys st.ipReservations →
      (apiReserve now station clientIP st).1 = identityAlreadyReserved) ∧
    (InCatalog station → clientIP ∉ JsMap.keys st.ipReservations →
      station ∈ JsMap.keys st.reservedStations →
      (apiReserve now station clientIP st).1 = slotTaken) ∧
    (InCatalog station → clientIP ∉ JsMap.keys st.ipReservations →
      station ∉ JsMap.keys st.reservedStations →
      (apiReserve now station clientIP st).1 = reservedOk station) := by
  refine ⟨fun hc => ?_, fun hc hip => ?_, fun hc hip hs => ?_, fun hc hip hs => ?_⟩
  · rw [apiReserve_invalid hpass (includes_of_not_inCatalog hc)]
  · rw [apiReserve_identity hpass (includes_of_inCatalog hc) (has_of_mem_keys hip)]
  · rw [apiReserve_taken hpass (includes_of_inCatalog hc) (has_of_not_mem_keys hip)
      (has_of_mem_keys hs)]
  · rw [apiReserve_ok hpass (includes_of_inCatalog hc) (has_of_not_mem_keys hip)
      (has_of_not_mem_keys hs)]

/-- Witness for C2: the first request of a fresh process, for the station `Nation`. -/
theorem reserve_check_order_witness :
    (consume rateLimiter 0 (JsValue.string "10.0.0.1") State.initial.limiter).1 = true ∧
    (InCatalog (JsValue.string "Nation") →
      JsValue.string "10.0.0.1" ∉ JsMap.keys State.initial.ipReservations →
      JsValue.string "Nation" ∉ JsMap.keys State.initial.reservedStations →
      (apiReserve 0 (JsValue.string "Nation") (JsValue.string "10.0.0.1") State.initial).1 =
        reservedOk (JsValue.string "Nation")) :=
  ⟨by decide,
    (reserve_check_order 0 (JsValue.string "Nation") (JsValue.string "10.0.0.1") State.initial
      (by decide)).2.2.2⟩

/-- C3, successful reservation. A reserve request that passes the rate limiter, for a
catalog station that is not reserved, from an address holding no reservation, is answered
with success and the station; afterwards `reservedStations` maps the station to the
address, `ipReservations` maps the address to the station, and all other lookups in both
maps are as before: each map has gained exactly that one entry, at its end. -/
theorem reserve_success (now : Nat) (station clientIP : JsValue) (st : State)
    (hpass : (consume rateLimiter now clientIP st.limiter).1 = true)
    (hcat : InCatalog station)
    (hip : clientIP ∉ JsMap.keys st.ipReservations)
    (hs : station ∉ JsMap.keys st.reservedStations) :
    (apiReserve now station clientIP st).1 = reservedOk station ∧
    JsMap.find (apiReserve now station clientIP st).2.reservedStations station = some clientIP ∧
    JsMap.find (apiReserve now station clientIP st).2.ipReservations clientIP = some station ∧
    (∀ s, s ≠ station →
      JsMap.find (apiReserve now station clientIP st).2.reservedStations s =
        JsMap.find st.reservedStations s) ∧
    (∀ ip, ip ≠ clientIP →
      JsMap.find (apiReserve now station clientIP st).2.ipReservations ip =
        JsMap.find st.ipReservations ip) ∧
    (apiReserve now station clientIP st).2.reservedStations =
      st.reservedStations ++ [(station, clientIP)] ∧
    (apiReserve now station clientIP st).2.ipReservations =
      st.ipReservations ++ [(clientIP, station)] := by
  rw [apiReserve_ok hpass (includes_of_inCatalog hcat) (has_of_not_mem_keys hip)
    (has_of_not_mem_keys hs)]
  refine ⟨rfl, ?_, ?_, ?_, ?_, ?_, ?_⟩
  · exact JsMap.find_set_self _ _ _
  · exact JsMap.find_set_self _ _ _
  · intro s hne
    exact JsMap.find_set_ne _ _ hne
  · intro ip hne
    exact JsMap.find_set_ne _ _ hne
  · exact JsMap.set_of_find_none _ _ ((JsMap.find_eq_none_iff _ _).mpr hs)
  · exact JsMap.set_of_find_none _ _ ((JsMap.find_eq_none_iff _ _).mpr hip)

/-- Witness for C3: the first request of a fresh process, for the station `Nation`. -/
theorem reserve_success_witness :
    (apiReserve 0 (JsValue.string "Nation") (JsValue.string "10.0.0.1") State.initial).1 =
      reservedOk (JsValue.string "Nation") ∧
    (apiReserve 0 (JsValue.string "Nation") (JsValue.string "10.0.0.1")
      State.initial).2.reservedStations = [(JsValue.string "Nation", JsValue.string "10.0.0.1")] ∧
    (apiReserve 0 (JsValue.string "Nation") (JsValue.string "10.0.0.1")
      State.initial).2.ipReservations = [(JsValue.string "10.0.0.1", JsValue.string "Nation")] :=
  have h := reserve_success 0 (JsValue.string "Nation") (JsValue.string "10.0.0.1")
    State.initial (by decide) ⟨"Nation", by decide, rfl⟩ (by decide) (by decide)
  ⟨h.1, h.2.2.2.2.2.1, h.2.2.2.2.2.2⟩

/-- C9, catalog-membership invariant. After any sequence of requests handled from the
initial state, every key of `reservedStations` and every value of `ipReservations` is the
name of a station of `metroStations`. -/
theorem catalog_membership_invariant (reqs : List Request) :
    (∀ s ∈ JsMap.keys (run reqs State.initial).2.reservedStations,
      ∃ name, name ∈ metroStations ∧ s = JsValue.string name) ∧
    (∀ s ∈ JsMap.values (run reqs State.initial).2.ipReservations,
      ∃ name, name ∈ metroStations ∧ s = JsValue.string name) :=
  catalogMembers_run reqs
    ⟨by simp [State.initial, JsMap.keys], by simp [State.initial, JsMap.values]⟩

/-! ## The rate limiter -/

theorem consume_fst_congr (opts : RateLimiterOpts) (now : Nat) (key : JsValue)
    {l l' : JsMap RateLimitEntry} (h : JsMap.find l key = JsMap.find l' key) :
    (consume opts now key l).1 = (consume opts now key l').1 := by
  unfold consume
  simp only [h]
  split_ifs <;> rfl

theorem find_consume_ne (opts : RateLimiterOpts) (now : Nat) {key k : JsValue}
    (l : JsMap RateLimitEntry) (hne : k ≠ key) :
    JsMap.find (consume opts now key l).2 k = JsMap.find l k := by
  unfold consume
  simp only
  split_ifs
  · rfl
  · exact JsMap.find_set_ne _ _ hne

theorem consume_fst_of_ne (opts : RateLimiterOpts) (now now' : Nat) {key k : JsValue}
    (l : JsMap RateLimitEntry) (hne : k ≠ key) :
    (consume opts now k (consume opts now' key l).2).1 = (consume opts now k l).1 :=
  consume_fst_congr opts now k (find_consume_ne opts now' l hne)

/-! ## Competing requests -/

theorem run_reserveRequests_taken (station : JsValue) (callers : List (Nat × JsValue))
    (st : State) (hcat : InCatalog station)
    (htaken : station ∈ JsMap.keys st.reservedStations)
    (hdistinct : (callers.map Prod.snd).Nodup)
    (hnone : ∀ c ∈ callers, c.2 ∉ JsMap.keys st.ipReservations)
    (hbudget : ∀ c ∈ callers, (consume rateLimiter c.1 c.2 st.limiter).1 = true) :
    (run (reserveRequests station callers) st).1 = List.replicate callers.length slotTaken := by
  induction callers generalizing st with
  | nil => rfl
  | cons c cs ih =>
    have hpass := hbudget c (List.mem_cons_self _ _)
    have hstep := apiReserve_taken hpass (includes_of_inCatalog hcat)
      (has_of_not_mem_keys (hnone c (List.mem_cons_self _ _))) (has_of_mem_keys htaken)
    have hnd : c.2 ∉ cs.map Prod.snd ∧ (cs.map Prod.snd).Nodup := by
      simpa using hdistinct
    simp only [reserveRequests, List.map_cons, run, handle, List.length_cons,
      List.replicate_succ]
    rw [hstep]
    simp only
    have := ih { st with limiter := (consume rateLimiter c.1 c.2 st.limiter).2 } htaken hnd.2
      (fun d hd => hnone d (List.mem_cons_of_mem _ hd))
      (fun d hd => by
        have hne : d.2 ≠ c.2 := by
          intro he
          exact hnd.1 (he ▸ List.mem_map_of_mem Prod.snd hd)
        show (consume rateLimiter d.1 d.2 (consume rateLimiter c.1 c.2 st.limiter).2).1 = true
        rw [consume_fst_of_ne _ _ _ _ hne]
        exact hbudget d (List.mem_cons_of_mem _ hd))
    simp only [reserveRequests] at this
    rw [this]

theorem checkedSections_taken (station : JsValue) (ips : List JsValue) (st : State)
    (hcat : InCatalog station)
    (htaken : station ∈ JsMap.keys st.reservedStations)
    (hnone : ∀ ip ∈ ips, ip ∉ JsMap.keys st.ipReservations) :
    (checkedSections station ips st).1 = List.replicate ips.length slotTaken := by
  induction ips with
  | nil => rfl
  | cons ip ips ih =>
    have hstep := reserveChecked_taken station ip st (includes_of_inCatalog hcat)
      (has_of_not_mem_keys (hnone ip (List.mem_cons_self _ _))) (has_of_mem_keys htaken)
    simp only [checkedSections, hstep, List.length_cons, List.replicate_succ]
    rw [ih (fun d hd => hnone d (List.mem_cons_of_mem _ hd))]

theorem checkedSections_free (station : JsValue) (ip : JsValue) (ips : List JsValue)
    (st : State) (hcat : InCatalog station)
    (hfree : station ∉ JsMap.keys st.reservedStations)
    (hdistinct : (ip :: ips).Nodup)
    (hnone : ∀ d ∈ ip :: ips, d ∉ JsMap.keys st.ipReservations) :
    (checkedSections station (ip :: ips) st).1 =
      reservedOk station :: List.replicate ips.length slotTaken := by
  have hstep := reserveChecked_ok station ip st (includes_of_inCatalog hcat)
    (has_of_not_mem_keys (hnone ip (List.mem_cons_self _ _))) (has_of_not_mem_keys hfree)
  have hnd : ip ∉ ips ∧ ips.Nodup := by simpa using hdistinct
  simp only [checkedSections, hstep]
  rw [checkedSections_taken station ips _ hcat]
  · exact (JsMap.has_iff_mem_keys _ _).mp
      ((JsMap.has_eq_true_iff _ _).mpr ⟨ip, JsMap.find_set_self _ _ _⟩)
  · intro d hd
    have hne : d ≠ ip := by
      intro he
      exact hnd.1 (he ▸ hd)
    apply (JsMap.find_eq_none_iff _ _).mp
    show JsMap.find (JsMap.set st.ipReservations ip station) d = none
    rw [JsMap.find_set_ne _ _ hne]
    exact (JsMap.find_eq_none_iff _ _).mpr (hnone d (List.mem_cons_of_mem _ hd))

/-- C4, mutual exclusion. Reserve requests for one catalog station that is free, sent by
pairwise distinct addresses that hold no reservation and have an unspent rate-limit
budget: in whatever order they are handled (the order of the list), the first one handled
succeeds and every other one is answered `Station déjà prise`, so exactly one succeeds.
The same holds of their check-and-update sections taken alone. -/
theorem mutual_exclusion (station : JsValue) (callers : List (Nat × JsValue)) (st : State)
    (hne : callers ≠ [])
    (hcat : InCatalog station)
    (hfree : station ∉ JsMap.keys st.reservedStations)
    (hdistinct : (callers.map Prod.snd).Nodup)
    (hnone : ∀ c ∈ callers, c.2 ∉ JsMap.keys st.ipReservations)
    (hbudget : ∀ c ∈ callers, (consume rateLimiter c.1 c.2 st.limiter).1 = true) :
    (run (reserveRequests station callers) st).1 =
      reservedOk station :: List.replicate (callers.length - 1) slotTaken ∧
    ((run (reserveRequests station callers) st).1.filter
      fun r => decide (r.status = 200)).length = 1 ∧
    (checkedSections station (callers.map Prod.snd) st).1 =
      reservedOk station :: List.replicate (callers.length - 1) slotTaken := by
  cases callers with
  | nil => exact absurd rfl hne
  | cons c cs =>
    have hsections := checkedSections_free station c.2 (cs.map Prod.snd) st hcat hfree
      (by simpa using hdistinct)
      (fun d hd => by
        obtain ⟨e, he, rfl⟩ := List.mem_map.mp
          (show d ∈ (c :: cs).map Prod.snd by simpa using hd)
        exact hnone e he)
    have hpass := hbudget c (List.mem_cons_self _ _)
    have hstep := apiReserve_ok hpass (includes_of_inCatalog hcat)
      (has_of_not_mem_keys (hnone c (List.mem_cons_self _ _))) (has_of_not_mem_keys hfree)
    have hnd : c.2 ∉ cs.map Prod.snd ∧ (cs.map Prod.snd).Nodup := by
      simpa using hdistinct
    have hrest := run_reserveRequests_taken station cs
      (ioEmit (Event.stationReserved station)
        { st with
          reservedStations := JsMap.set st.reservedStations station c.2
          ipReservations := JsMap.set st.ipReservations c.2 station
          limiter := (consume rateLimiter c.1 c.2 st.limiter).2 })
      hcat
      ((JsMap.has_iff_mem_keys _ _).mp
        ((JsMap.has_eq_true_iff _ _).mpr ⟨c.2, JsMap.find_set_self _ _ _⟩))
      hnd.2
      (fun d hd => by
        have hne : d.2 ≠ c.2 := by
          intro he
          exact hnd.1 (he ▸ List.mem_map_of_mem Prod.snd hd)
        apply (JsMap.find_eq_none_iff _ _).mp
        show JsMap.find (JsMap.set st.ipReservations c.2 station) d.2 = none
        rw [JsMap.find_set_ne _ _ hne]
        exact (JsMap.find_eq_none_iff _ _).mpr (hnone d (List.mem_cons_of_mem _ hd)))
      (fun d hd => by
        have hne : d.2 ≠ c.2 := by
          intro he
          exact hnd.1 (he ▸ List.mem_map_of_mem Prod.snd hd)
        show (consume rateLimiter d.1 d.2 (consume rateLimiter c.1 c.2 st.limiter).2).1 = true
        rw [consume_fst_of_ne _ _ _ _ hne]
        exact hbudget d (List.mem_cons_of_mem _ hd))
    have hall : (run (reserveRequests station (c :: cs)) st).1 =
        reservedOk station :: List.replicate cs.length slotTaken := by
      simp only [reserveRequests, List.map_cons, run, handle]
      rw [hstep]
      simp only [reserveRequests] at hrest
      simp only
      rw [hrest]
    refine ⟨by simpa using hall, ?_, by simpa using hsections⟩
    rw [hall]
    simp [reservedOk, slotTaken, List.filter_replicate]

/-- Witness for C4: three addresses ask for `Nation` on a fresh process. -/
theorem mutual_exclusion_witness :
    (run (reserveRequests (JsValue.string "Nation")
      [(0, JsValue.string "10.0.0.1"), (5, JsValue.string "10.0.0.2"),
        (5, JsValue.string "10.0.0.3")]) State.initial).1 =
      [reservedOk (JsValue.string "Nation"), slotTaken, slotTaken] :=
  (mutual_exclusion (JsValue.string "Nation")
    [(0, JsValue.string "10.0.0.1"), (5, JsValue.string "10.0.0.2"),
      (5, JsValue.string "10.0.0.3")] State.initial (by decide) ⟨"Nation", by decide, rfl⟩
    (by decide) (by decide) (by decide) (by decide)).1

theorem consume_new (now : Nat) {key : JsValue} {l : JsMap RateLimitEntry}
    (h : JsMap.find l key = none) :
    consume rateLimiter now key l =
      (true, JsMap.set l key
        { remainingPoints := 0, windowResetAt := now + rateLimiter.duration * 1000 }) := by
  simp [consume, h, rateLimiter]

theorem consume_elapsed {now : Nat} {key : JsValue} {l : JsMap RateLimitEntry}
    {e : RateLimitEntry} (h : JsMap.find l key = some e) (he : e.windowResetAt ≤ now) :
    consume rateLimiter now key l =
      (true, JsMap.set l key
        { remainingPoints := 0, windowResetAt := now + rateLimiter.duration * 1000 }) := by
  simp [consume, h, he, rateLimiter]

theorem consume_spent {now : Nat} {key : JsValue} {l : JsMap RateLimitEntry}
    {e : RateLimitEntry} (h : JsMap.find l key = some e) (hz : e.remainingPoints = 0)
    (he : now < e.windowResetAt) :
    consume rateLimiter now key l = (false, l) := by
  simp [consume, h, Nat.not_le.mpr he, hz]

/-- A request from an address that already holds a reservation, for a catalog station, is
answered `RateLimited` or `IdentityAlreadyReserved` and leaves both maps as they were. -/
theorem apiReserve_holding (now : Nat) {station clientIP : JsValue} (st : State)
    (hcat : InCatalog station) (hip : clientIP ∈ JsMap.keys st.ipReservations) :
    apiReserve now station clientIP st =
      (if (consume rateLimiter now clientIP st.limiter).1 = true then identityAlreadyReserved
        else rateLimited,
       { st with limiter := (consume rateLimiter now clientIP st.limiter).2 }) := by
  cases hc : (consume rateLimiter now clientIP st.limiter).1 with
  | true =>
    rw [apiReserve_identity hc (includes_of_inCatalog hcat) (has_of_mem_keys hip)]
    simp
  | false =>
    rw [apiReserve_reject station hc]
    simp

theorem run_reserveAttempts_holding (clientIP : JsValue) (attempts : List (Nat × JsValue))
    (st : State) (hcat : ∀ a ∈ attempts, InCatalog a.2)
    (hip : clientIP ∈ JsMap.keys st.ipReservations) :
    (run (reserveAttempts clientIP attempts) st).1.length = attempts.length ∧
    ∀ r ∈ (run (reserveAttempts clientIP attempts) st).1,
      r = rateLimited ∨ r = identityAlreadyReserved := by
  induction attempts generalizing st with
  | nil => simp [reserveAttempts, run]
  | cons a as ih =>
    have hstep := apiReserve_holding a.1 st (hcat a (List.mem_cons_self _ _)) hip
    have ih' := ih { st with limiter := (consume rateLimiter a.1 clientIP st.limiter).2 }
      (fun b hb => hcat b (List.mem_cons_of_mem _ hb)) hip
    simp only [reserveAttempts] at ih'
    simp only [reserveAttempts, List.map_cons, run, handle, hstep, List.length_cons,
      List.mem_cons]
    refine ⟨by rw [ih'.1], ?_⟩
    rintro r (hr | hr)
    · subst hr
      split_ifs
      · exact Or.inr rfl
      · exact Or.inl rfl
    · exact ih'.2 r hr

theorem run_reserveAttempts_within (clientIP : JsValue) (attempts : List (Nat × JsValue))
    (st : State) (w : Nat)
    (hentry : JsMap.find st.limiter clientIP = some { remainingPoints := 0, windowResetAt := w })
    (hwithin : ∀ a ∈ attempts, a.1 < w) :
    (run (reserveAttempts clientIP attempts) st).1 =
      List.replicate attempts.length rateLimited := by
  induction attempts with
  | nil => rfl
  | cons a as ih =>
    have hc := consume_spent hentry rfl (hwithin a (List.mem_cons_self _ _))
    have hstep : apiReserve a.1 a.2 clientIP st = (rateLimited, st) := by
      rw [apiReserve_reject a.2 (by rw [hc]), hc]
    have ih' := ih (fun b hb => hwithin b (List.mem_cons_of_mem _ hb))
    simp only [reserveAttempts] at ih'
    simp only [reserveAttempts, List.map_cons, run, handle, hstep, List.length_cons,
      List.replicate_succ, ih']

theorem run_reserveAttempts_spaced (clientIP : JsValue) (attempts : List (Nat × JsValue))
    (st : State) (t : Nat)
    (hcat : ∀ a ∈ attempts, InCatalog a.2)
    (hip : clientIP ∈ JsMap.keys st.ipReservations)
    (hentry : JsMap.find st.limiter clientIP =
      some { remainingPoints := 0, windowResetAt := t + rateLimiter.duration * 1000 })
    (hspaced : List.Chain (fun a b => a + rateLimiter.duration * 1000 ≤ b) t
      (attempts.map Prod.fst)) :
    (run (reserveAttempts clientIP attempts) st).1 =
      List.replicate attempts.length identityAlreadyReserved := by
  induction attempts generalizing st t with
  | nil => rfl
  | cons a as ih =>
    have hch : t + rateLimiter.duration * 1000 ≤ a.1 ∧
        List.Chain (fun a b => a + rateLimiter.duration * 1000 ≤ b) a.1 (as.map Prod.fst) := by
      simpa using hspaced
    have hc := consume_elapsed hentry hch.1
    have hstep := apiReserve_holding a.1 st (hcat a (List.mem_cons_self _ _)) hip
    have hentry' : JsMap.find (consume rateLimiter a.1 clientIP st.limiter).2 clientIP =
        some { remainingPoints := 0, windowResetAt := a.1 + rateLimiter.duration * 1000 } := by
      rw [hc]
      exact JsMap.find_set_self _ _ _
    have ih' := ih { st with limiter := (consume rateLimiter a.1 clientIP st.limiter).2 }
      a.1 (fun b hb => hcat b (List.mem_cons_of_mem _ hb)) hip hentry' hch.2
    have hpass : (consume rateLimiter a.1 clientIP st.limiter).1 = true := by rw [hc]
    simp only [reserveAttempts] at ih'
    simp only [reserveAttempts, List.map_cons, run, handle, hstep, List.length_cons,
      List.replicate_succ, ih', hpass, if_true]

/-- C5 as stated fails: on a fresh process, an address reserves `Nation` and one second
later asks for `Bastille`, another free catalog station. The second request is stopped by
the rate limiter and answered `RateLimited` (429), not `IdentityAlreadyReserved`. -/
theorem one_per_identity_counterexample :
    includes metroStations (JsValue.string "Nation") = true ∧
    includes metroStations (JsValue.string "Bastille") = true ∧
    (run (reserveAttempts (JsValue.string "10.0.0.1")
      [(0, JsValue.string "Nation"), (1000, JsValue.string "Bastille")]) State.initial).1 =
      [reservedOk (JsValue.string "Nation"), rateLimited] ∧
    (run (reserveAttempts (JsValue.string "10.0.0.1")
      [(0, JsValue.string "Nation"), (1000, JsValue.string "Bastille")]) State.initial).1 ≠
      [reservedOk (JsValue.string "Nation"), identityAlreadyReserved] := by
  decide

/-- C5, amended. Reserve requests of one address for distinct free catalog stations,
handled one after the other, the address holding no reservation and having no running
rate-limit window at the first request: the first request succeeds and every other one
fails, with `RateLimited` (429) or with `IdentityAlreadyReserved` (400). All of them fail
with `RateLimited` when they are sent less than 24 h after the first; all of them fail
with `IdentityAlreadyReserved` when each is sent at least 24 h after the one before. -/
theorem one_per_identity (clientIP : JsValue) (first : Nat × JsValue)
    (others : List (Nat × JsValue)) (st : State)
    (hcat : ∀ a ∈ first :: others, InCatalog a.2)
    (hfree : ∀ a ∈ first :: others, a.2 ∉ JsMap.keys st.reservedStations)
    (_hdistinct : ((first :: others).map Prod.snd).Nodup)
    (hnone : clientIP ∉ JsMap.keys st.ipReservations)
    (hbudget : ∀ e, JsMap.find st.limiter clientIP = some e → e.windowResetAt ≤ first.1) :
    ∃ rest, (run (reserveAttempts clientIP (first :: others)) st).1 =
        reservedOk first.2 :: rest ∧
      rest.length = others.length ∧
      (∀ r ∈ rest, r = rateLimited ∨ r = identityAlreadyReserved) ∧
      ((∀ a ∈ others, a.1 < first.1 + rateLimiter.duration * 1000) →
        rest = List.replicate others.length rateLimited) ∧
      (List.Chain (fun t t' => t + rateLimiter.duration * 1000 ≤ t') first.1
          (others.map Prod.fst) →
        rest = List.replicate others.length identityAlreadyReserved) := by
  have hc : consume rateLimiter first.1 clientIP st.limiter =
      (true, JsMap.set st.limiter clientIP
        { remainingPoints := 0, windowResetAt := first.1 + rateLimiter.duration * 1000 }) := by
    cases hf : JsMap.find st.limiter clientIP with
    | none => exact consume_new _ hf
    | some e => exact consume_elapsed hf (hbudget e hf)
  have hpass : (consume rateLimiter first.1 clientIP st.limiter).1 = true := by rw [hc]
  have hstep := apiReserve_ok hpass (includes_of_inCatalog (hcat first (List.mem_cons_self _ _)))
    (has_of_not_mem_keys hnone) (has_of_not_mem_keys (hfree first (List.mem_cons_self _ _)))
  have hcat' : ∀ a ∈ others, InCatalog a.2 := fun a ha => hcat a (List.mem_cons_of_mem _ ha)
  have hip : clientIP ∈ JsMap.keys (apiReserve first.1 first.2 clientIP st).2.ipReservations := by
    rw [hstep]
    exact (JsMap.has_iff_mem_keys _ _).mp
      ((JsMap.has_eq_true_iff _ _).mpr ⟨first.2, JsMap.find_set_self _ _ _⟩)
  have hentry : JsMap.find (apiReserve first.1 first.2 clientIP st).2.limiter clientIP =
      some { remainingPoints := 0, windowResetAt := first.1 + rateLimiter.duration * 1000 } := by
    rw [hstep]
    show JsMap.find (consume rateLimiter first.1 clientIP st.limiter).2 clientIP = _
    rw [hc]
    exact JsMap.find_set_self _ _ _
  refine ⟨(run (reserveAttempts clientIP others) (apiReserve first.1 first.2 clientIP st).2).1,
    ?_, ?_, ?_, ?_, ?_⟩
  · simp only [reserveAttempts, List.map_cons, run, handle]
    rw [hstep]
  · exact (run_reserveAttempts_holding clientIP others _ hcat' hip).1
  · exact (run_reserveAttempts_holding clientIP others _ hcat' hip).2
  · intro hwithin
    exact run_reserveAttempts_within clientIP others _ _ hentry hwithin
  · intro hspaced
    exact run_reserveAttempts_spaced clientIP others _ first.1 hcat' hip hentry hspaced

/-- Witness for the amended C5: `Nation` at time 0, then `Bastille` one second later. -/
theorem one_per_identity_witness :
    ∃ rest, (run (reserveAttempts (JsValue.string "10.0.0.1")
        [(0, JsValue.string "Nation"), (1000, JsValue.string "Bastille")]) State.initial).1 =
        reservedOk (JsValue.string "Nation") :: rest ∧ rest = [rateLimited] := by
  obtain ⟨rest, h1, _, _, h4, _⟩ := one_per_identity (JsValue.string "10.0.0.1")
    (0, JsValue.string "Nation") [(1000, JsValue.string "Bastille")] State.initial
    (fun a ha => (includes_metroStations_iff a.2).mp
      ((by decide : ∀ a ∈ [((0 : Nat), JsValue.string "Nation"), (1000, JsValue.string "Bastille")],
        includes metroStations a.2 = true) a ha))
    (by decide) (by decide) (by decide) (by simp [State.initial, JsMap.find])
  exact ⟨rest, h1, h4 (by decide)⟩

/-- C6, release. In a state whose two maps are inverse to each other, a release request
with the valid admin key: for a station without reservation it is answered
`Station non réservée` (400) and the state is unchanged; for a station reserved by `ip` it
succeeds, the station is no longer a key of `reservedStations`, `ip` is no longer a key of
`ipReservations`, every other lookup in both maps is as before (in particular every pair
of another station is kept), and the maps are still inverse to each other. -/
theorem release_effect (station : JsValue) (st : State) (hinv : Inverse st) :
    (station ∉ JsMap.keys st.reservedStations →
      apiRelease station validKey st = (notReserved, st)) ∧
    (∀ ip, JsMap.find st.reservedStations station = some ip →
      (apiRelease station validKey st).1 = adminOk ∧
      station ∉ JsMap.keys (apiRelease station validKey st).2.reservedStations ∧
      ip ∉ JsMap.keys (apiRelease station validKey st).2.ipReservations ∧
      (∀ s, s ≠ station →
        JsMap.find (apiRelease station validKey st).2.reservedStations s =
          JsMap.find st.reservedStations s) ∧
      (∀ i, i ≠ ip →
        JsMap.find (apiRelease station validKey st).2.ipReservations i =
          JsMap.find st.ipReservations i) ∧
      (∀ i s, s ≠ station → JsMap.find st.ipReservations i = some s →
        JsMap.find (apiRelease station validKey st).2.ipReservations i = some s) ∧
      Inverse (apiRelease station validKey st).2) := by
  constructor
  · intro hs
    exact apiRelease_notReserved ((JsMap.find_eq_none_iff _ _).mpr hs)
  · intro ip hf
    rw [apiRelease_ok hf]
    refine ⟨rfl, ?_, ?_, ?_, ?_, ?_, ?_⟩
    · exact (JsMap.find_eq_none_iff _ _).mp (JsMap.find_delete_self _ _)
    · exact (JsMap.find_eq_none_iff _ _).mp (JsMap.find_delete_self _ _)
    · intro s hne
      exact JsMap.find_delete_ne _ hne
    · intro i hne
      exact JsMap.find_delete_ne _ hne
    · intro i s hne hi
      have hne' : i ≠ ip := by
        intro he
        subst he
        rw [(hinv station i).mp hf] at hi
        exact hne (Option.some.inj hi).symm
      show JsMap.find (JsMap.delete st.ipReservations ip) i = some s
      rw [JsMap.find_delete_ne _ hne']
      exact hi
    · exact inverse_delete hinv hf

/-- Witness for C6: the release of `Nation` right after its reservation on a fresh
process empties both maps. -/
theorem release_effect_witness :
    (apiRelease (JsValue.string "Nation") validKey
      (run [Request.reserve 0 (JsValue.string "Nation") (JsValue.string "10.0.0.1")]
        State.initial).2).1 = adminOk ∧
    JsValue.string "Nation" ∉ JsMap.keys (apiRelease (JsValue.string "Nation") validKey
      (run [Request.reserve 0 (JsValue.string "Nation") (JsValue.string "10.0.0.1")]
        State.initial).2).2.reservedStations :=
  have h := (release_effect (JsValue.string "Nation")
    (run [Request.reserve 0 (JsValue.string "Nation") (JsValue.string "10.0.0.1")]
      State.initial).2
    (consistent_run _ consistent_initial).inverse).2 (JsValue.string "10.0.0.1") (by decide)
  ⟨h.1, h.2.1⟩

/-- C7, idempotent reset. In every state a reset-all request with the valid admin key
succeeds and leaves both maps empty; a second such request right after it succeeds too
and leaves both maps empty again, the rate limiter being untouched by both. -/
theorem reset_idempotent (st : State) :
    (apiResetAll validKey st).1 = adminOk ∧
    (apiResetAll validKey st).2.reservedStations = [] ∧
    (apiResetAll validKey st).2.ipReservations = [] ∧
    (apiResetAll validKey (apiResetAll validKey st).2).1 = adminOk ∧
    (apiResetAll validKey (apiResetAll validKey st).2).2.reservedStations =
      (apiResetAll validKey st).2.reservedStations ∧
    (apiResetAll validKey (apiResetAll validKey st).2).2.ipReservations =
      (apiResetAll validKey st).2.ipReservations ∧
    (apiResetAll validKey (apiResetAll validKey st).2).2.limiter = st.limiter := by
  rw [apiResetAll_ok (apiResetAll validKey st).2, apiResetAll_ok st]
  exact ⟨rfl, rfl, rfl, rfl, rfl, rfl, rfl⟩

/-- C8, status listing. In every state `GET /api/stations` answers 200 with a list that
has one entry per element of `metroStations`, in the same order: entry `i` carries the
name `metroStations[i]`, and its flag `reserved` is true exactly when that name is a key
of `reservedStations`. The state is left as it was. -/
theorem stations_listing (st : State) :
    (apiStations st).2 = st ∧
    ∃ listing : List StationStatus, (apiStations st).1 = { status := 200, body := Body.stations listing } ∧
      listing.length = metroStations.length ∧
      listing.map StationStatus.name = metroStations ∧
      (∀ (i : Nat) (entry : StationStatus), listing[i]? = some entry →
        metroStations[i]? = some entry.name ∧
        (entry.reserved = true ↔
          JsValue.string entry.name ∈ JsMap.keys st.reservedStations)) := by
  refine ⟨rfl, _, rfl, by simp, ?_, ?_⟩
  · simp [List.map_map, Function.comp_def]
  · intro i entry h
    rw [List.getElem?_map] at h
    cases hm : metroStations[i]? with
    | none => simp [hm] at h
    | some name =>
      simp only [hm, Option.map_some', Option.some.injEq] at h
      subst h
      exact ⟨rfl, JsMap.has_iff_mem_keys _ _⟩

/-- C10, failure atomicity. Whenever a request is answered with an error, that is with a
status other than 200, the status is 400, 403 or 429 and `reservedStations` and
`ipReservations` are exactly as before the request; nothing was emitted either. -/
theorem failure_atomicity (r : Request) (st : State)
    (herr : (handle r st).1.status ≠ 200) :
    ((handle r st).1.status = 400 ∨ (handle r st).1.status = 403 ∨
      (handle r st).1.status = 429) ∧
    (handle r st).2.reservedStations = st.reservedStations ∧
    (handle r st).2.ipReservations = st.ipReservations ∧
    (handle r st).2.emitted = st.emitted := by
  cases r with
  | stations => exact absurd rfl herr
  | reserve now station clientIP =>
    simp only [handle] at herr ⊢
    cases hc : (consume rateLimiter now clientIP st.limiter).1 with
    | false =>
      rw [apiReserve_reject station hc]
      exact ⟨Or.inr (Or.inr rfl), rfl, rfl, rfl⟩
    | true =>
      cases hi : includes metroStations station with
      | false =>
        rw [apiReserve_invalid hc hi]
        exact ⟨Or.inl rfl, rfl, rfl, rfl⟩
      | true =>
        cases hip : JsMap.has st.ipReservations clientIP with
        | true =>
          rw [apiReserve_identity hc hi hip]
          exact ⟨Or.inl rfl, rfl, rfl, rfl⟩
        | false =>
          cases hs : JsMap.has st.reservedStations station with
          | true =>
            rw [apiReserve_taken hc hi hip hs]
            exact ⟨Or.inl rfl, rfl, rfl, rfl⟩
          | false =>
            rw [apiReserve_ok hc hi hip hs] at herr
            exact absurd rfl herr
  | release station adminKey =>
    simp only [handle] at herr ⊢
    by_cases hk : adminKey = validKey
    · subst hk
      cases hf : JsMap.find st.reservedStations station with
      | none =>
        rw [apiRelease_notReserved hf]
        exact ⟨Or.inl rfl, rfl, rfl, rfl⟩
      | some ip =>
        rw [apiRelease_ok hf] at herr
        exact absurd rfl herr
    · rw [apiRelease_unauthorized station st hk]
      exact ⟨Or.inr (Or.inl rfl), rfl, rfl, rfl⟩
  | resetAll adminKey =>
    simp only [handle] at herr ⊢
    by_cases hk : adminKey = validKey
    · subst hk
      rw [apiResetAll_ok] at herr
      exact absurd rfl herr
    · rw [apiResetAll_unauthorized st hk]
      exact ⟨Or.inr (Or.inl rfl), rfl, rfl, rfl⟩

/-- Witness for C10: after `Nation` has been reserved, a second address asking for it is
refused and the maps still hold the one pair. -/
theorem failure_atomicity_witness :
    (handle (Request.reserve 5 (JsValue.string "Nation") (JsValue.string "10.0.0.2"))
      (run [Request.reserve 0 (JsValue.string "Nation") (JsValue.string "10.0.0.1")]
        State.initial).2).1.status ≠ 200 ∧
    (handle (Request.reserve 5 (JsValue.string "Nation") (JsValue.string "10.0.0.2"))
      (run [Request.reserve 0 (JsValue.string "Nation") (JsValue.string "10.0.0.1")]
        State.initial).2).2.reservedStations =
      [(JsValue.string "Nation", JsValue.string "10.0.0.1")] :=
  ⟨by decide,
    (failure_atomicity
      (Request.reserve 5 (JsValue.string "Nation") (JsValue.string "10.0.0.2"))
      (run [Request.reserve 0 (JsValue.string "Nation") (JsValue.string "10.0.0.1")]
        State.initial).2 (by decide)).2.1.trans (by decide)⟩

/-! ## Admin requests -/

theorem apiRelease_authorized_cases (station : JsValue) (st : State) :
    apiRelease station validKey st = (notReserved, st) ∨
    ∃ ip, JsMap.find st.reservedStations station = some ip ∧
      apiRelease station validKey st =
        (adminOk,
          ioEmit (Event.stationReleased station)
            { st with
              reservedStations := JsMap.delete st.reservedStations station
              ipReservations := JsMap.delete st.ipReservations ip }) := by
  cases hf : JsMap.find st.reservedStations station with
  | none => exact Or.inl (apiRelease_notReserved hf)
  | some ip => exact Or.inr ⟨ip, rfl, apiRelease_ok hf⟩

/-- C11, authorization gating. A release or reset-all request is answered `Non autorisé`
(403) exactly when its `adminKey` is not the string `reset123`; an unauthorized release
of a station without reservation is answered 403 and not `Station non réservée`; and both
handlers leave the rate limiter as it is and answer the same whatever it holds. -/
theorem authorization_gating (station adminKey : JsValue) (st : State) :
    ((apiRelease station adminKey st).1.status = 403 ↔
      adminKey ≠ JsValue.string "reset123") ∧
    ((apiRelease station adminKey st).1 = authError ↔
      adminKey ≠ JsValue.string "reset123") ∧
    ((apiResetAll adminKey st).1.status = 403 ↔ adminKey ≠ JsValue.string "reset123") ∧
    ((apiResetAll adminKey st).1 = authError ↔ adminKey ≠ JsValue.string "reset123") ∧
    (adminKey ≠ JsValue.string "reset123" → station ∉ JsMap.keys st.reservedStations →
      (apiRelease station adminKey st).1 = authError ∧
      (apiRelease station adminKey st).1 ≠ notReserved) ∧
    (apiRelease station adminKey st).2.limiter = st.limiter ∧
    (apiResetAll adminKey st).2.limiter = st.limiter ∧
    (∀ entries, (apiRelease station adminKey { st with limiter := entries }).1 =
      (apiRelease station adminKey st).1) ∧
    (∀ entries, (apiResetAll adminKey { st with limiter := entries }).1 =
      (apiResetAll adminKey st).1) := by
  by_cases hk : adminKey = validKey
  · subst hk
    have hv : validKey = JsValue.string "reset123" := rfl
    have hreset : ∀ s : State, (apiResetAll validKey s).1 = adminOk := fun s => by
      rw [apiResetAll_ok]
    have hrel : ∀ s : State, s.reservedStations = st.reservedStations →
        (apiRelease station validKey s).1 = (apiRelease station validKey st).1 := by
      intro s hs
      cases hf : JsMap.find st.reservedStations station with
      | none =>
        rw [apiRelease_notReserved hf, apiRelease_notReserved (by rw [hs]; exact hf)]
      | some ip =>
        rw [apiRelease_ok hf, apiRelease_ok (by rw [hs]; exact hf)]
    refine ⟨?_, ?_, ?_, ?_, ?_, ?_, ?_, ?_, ?_⟩
    · rcases apiRelease_authorized_cases station st with h | ⟨ip, _, h⟩ <;> rw [h] <;>
        simp [validKey, notReserved, adminOk]
    · rcases apiRelease_authorized_cases station st with h | ⟨ip, _, h⟩ <;> rw [h] <;>
        simp [validKey, notReserved, adminOk, authError]
    · rw [hreset]
      simp [validKey, adminOk]
    · rw [hreset]
      simp [validKey, adminOk, authError]
    · intro h
      exact absurd hv h
    · rcases apiRelease_authorized_cases station st with h | ⟨ip, _, h⟩
      · rw [h]
      · rw [h]
        rfl
    · rw [apiResetAll_ok]
      rfl
    · intro entries
      exact hrel _ rfl
    · intro entries
      rw [hreset, hreset]
  · have hk' : adminKey ≠ JsValue.string "reset123" := hk
    have hrel : ∀ s : State, apiRelease station adminKey s = (authError, s) :=
      fun s => apiRelease_unauthorized station s hk
    have hreset : ∀ s : State, apiResetAll adminKey s = (authError, s) :=
      fun s => apiResetAll_unauthorized s hk
    refine ⟨?_, ?_, ?_, ?_, ?_, ?_, ?_, ?_, ?_⟩
    · simp [hrel, hk', authError]
    · simp [hrel, hk']
    · simp [hreset, hk', authError]
    · simp [hreset, hk']
    · intro _ _
      rw [hrel]
      exact ⟨rfl, by simp [authError, notReserved]⟩
    · rw [hrel]
    · rw [hreset]
    · intro entries
      rw [hrel, hrel]
    · intro entries
      rw [hreset, hreset]

/-! ## Outcomes of a reserve request -/

/-- A reserve request is refused, with the maps and the emissions untouched, or it
succeeds on the path where all three checks pass. -/
theorem apiReserve_cases (now : Nat) (station clientIP : JsValue) (st : State) :
    ((apiReserve now station clientIP st).1.status ≠ 200 ∧
      (apiReserve now station clientIP st).2 =
        { st with limiter := (consume rateLimiter now clientIP st.limiter).2 }) ∨
    ((consume rateLimiter now clientIP st.limiter).1 = true ∧
      includes metroStations station = true ∧
      JsMap.has st.ipReservations clientIP = false ∧
      JsMap.has st.reservedStations station = false ∧
      apiReserve now station clientIP st =
        (reservedOk station,
          ioEmit (Event.stationReserved station)
            { st with
              reservedStations := JsMap.set st.reservedStations station clientIP
              ipReservations := JsMap.set st.ipReservations clientIP station
              limiter := (consume rateLimiter now clientIP st.limiter).2 })) := by
  cases hc : (consume rateLimiter now clientIP st.limiter).1 with
  | false =>
    rw [apiReserve_reject station hc]
    exact Or.inl ⟨by simp [rateLimited], rfl⟩
  | true =>
    cases hi : includes metroStations station with
    | false =>
      rw [apiReserve_invalid hc hi]
      exact Or.inl ⟨by simp [invalidSlot], rfl⟩
    | true =>
      cases hip : JsMap.has st.ipReservations clientIP with
      | true =>
        rw [apiReserve_identity hc hi hip]
        exact Or.inl ⟨by simp [identityAlreadyReserved], rfl⟩
      | false =>
        cases hs : JsMap.has st.reservedStations station with
        | true =>
          rw [apiReserve_taken hc hi hip hs]
          exact Or.inl ⟨by simp [slotTaken], rfl⟩
        | false =>
          exact Or.inr ⟨rfl, rfl, rfl, rfl, apiReserve_ok hc hi hip hs⟩

theorem apiReserve_of_status_ok {now : Nat} {station clientIP : JsValue} {st : State}
    (hok : (apiReserve now station clientIP st).1.status = 200) :
    (consume rateLimiter now clientIP st.limiter).1 = true ∧
    JsMap.find st.ipReservations clientIP = none ∧
    JsMap.find st.reservedStations station = none ∧
    apiReserve now station clientIP st =
      (reservedOk station,
        ioEmit (Event.stationReserved station)
          { st with
            reservedStations := JsMap.set st.reservedStations station clientIP
            ipReservations := JsMap.set st.ipReservations clientIP station
            limiter := (consume rateLimiter now clientIP st.limiter).2 }) := by
  rcases apiReserve_cases now station clientIP st with ⟨h, _⟩ | ⟨hc, _, hip, hs, h⟩
  · exact absurd hok h
  · exact ⟨hc, (JsMap.has_eq_false_iff _ _).mp hip, (JsMap.has_eq_false_iff _ _).mp hs, h⟩

/-- C15, events follow committed mutations. A reserve request that succeeds emits exactly
one `stationReserved` event carrying the station, at a moment when both maps already hold
the new pair; a reserve request that fails emits nothing. A release that succeeds emits
exactly one `stationReleased` event carrying the station, at a moment when the station is
no longer a key of `reservedStations` and its holder no longer a key of `ipReservations`;
a release that fails emits nothing. An authorized reset-all emits exactly one
`allStationsReleased`, at a moment when both maps are empty; an unauthorized one emits
nothing. In each case the maps recorded at the emission are the maps the handler
leaves. -/
theorem events_follow_mutations (st : State) :
    (∀ now station clientIP,
      ((apiReserve now station clientIP st).1.status = 200 →
        (apiReserve now station clientIP st).2.emitted = st.emitted ++
          [{ event := Event.stationReserved station,
             reservedStations := (apiReserve now station clientIP st).2.reservedStations,
             ipReservations := (apiReserve now station clientIP st).2.ipReservations }] ∧
        JsMap.find (apiReserve now station clientIP st).2.reservedStations station =
          some clientIP ∧
        JsMap.find (apiReserve now station clientIP st).2.ipReservations clientIP =
          some station) ∧
      ((apiReserve now station clientIP st).1.status ≠ 200 →
        (apiReserve now station clientIP st).2.emitted = st.emitted)) ∧
    (∀ station adminKey,
      ((apiRelease station adminKey st).1.status = 200 →
        (apiRelease station adminKey st).2.emitted = st.emitted ++
          [{ event := Event.stationReleased station,
             reservedStations := (apiRelease station adminKey st).2.reservedStations,
             ipReservations := (apiRelease station adminKey st).2.ipReservations }] ∧
        station ∉ JsMap.keys (apiRelease station adminKey st).2.reservedStations ∧
        JsMap.get st.reservedStations station ∉
          JsMap.keys (apiRelease station adminKey st).2.ipReservations) ∧
      ((apiRelease station adminKey st).1.status ≠ 200 →
        (apiRelease station adminKey st).2.emitted = st.emitted)) ∧
    (∀ adminKey,
      (adminKey = JsValue.string "reset123" →
        (apiResetAll adminKey st).2.emitted = st.emitted ++
          [{ event := Event.allStationsReleased, reservedStations := [],
             ipReservations := [] }] ∧
        (apiResetAll adminKey st).2.reservedStations = [] ∧
        (apiResetAll adminKey st).2.ipReservations = []) ∧
      (adminKey ≠ JsValue.string "reset123" →
        (apiResetAll adminKey st).2.emitted = st.emitted)) := by
  refine ⟨fun now station clientIP => ⟨fun hok => ?_, fun herr => ?_⟩,
    fun station adminKey => ⟨fun hok => ?_, fun herr => ?_⟩,
    fun adminKey => ⟨fun hk => ?_, fun hk => ?_⟩⟩
  · obtain ⟨_, _, _, h⟩ := apiReserve_of_status_ok hok
    rw [h]
    exact ⟨rfl, JsMap.find_set_self _ _ _, JsMap.find_set_self _ _ _⟩
  · rcases apiReserve_cases now station clientIP st with ⟨_, h⟩ | ⟨_, _, _, _, h⟩
    · rw [h]
    · rw [h] at herr
      exact absurd rfl herr
  · by_cases hk : adminKey = validKey
    · subst hk
      rcases apiRelease_authorized_cases station st with h | ⟨ip, hf, h⟩
      · rw [h] at hok
        simp [notReserved] at hok
      · have hget : JsMap.get st.reservedStations station = ip := by simp [JsMap.get, hf]
        rw [h, hget]
        exact ⟨rfl, (JsMap.find_eq_none_iff _ _).mp (JsMap.find_delete_self _ _),
          (JsMap.find_eq_none_iff _ _).mp (JsMap.find_delete_self _ _)⟩
    · rw [apiRelease_unauthorized station st hk] at hok
      simp [authError] at hok
  · by_cases hk : adminKey = validKey
    · subst hk
      rcases apiRelease_authorized_cases station st with h | ⟨ip, _, h⟩
      · rw [h]
      · rw [h] at herr
        exact absurd rfl herr
    · rw [apiRelease_unauthorized station st hk]
  · have hk' : adminKey = validKey := hk
    subst hk'
    rw [apiResetAll_ok]
    exact ⟨rfl, rfl, rfl⟩
  · rw [apiResetAll_unauthorized st hk]

set_option maxRecDepth 100000 in
/-- C16 as stated fails: `metroStations` is not duplicate-free, the name `Nation` occurs
three times in it (lines 1, 6 and 9 of the metro), and so it occurs three times in the
status listing of the initial state. -/
theorem catalog_set_counterexample :
    ¬ metroStations.Nodup ∧ metroStations.count "Nation" = 3 ∧
    ∃ listing, (apiStations State.initial).1 =
        { status := 200, body := Body.stations listing } ∧
      (listing.map StationStatus.name).count "Nation" = 3 := by
  refine ⟨by decide, by decide, _, rfl, ?_⟩
  simp only [List.map_map, Function.comp_def, List.map_id']
  decide

/-- In a list of blocks none of which lists `name` twice, `name` occurs once for each
block that lists it. -/
theorem count_flatten_of_count_le_one (name : String) (blocks : List (List String))
    (h : ∀ b ∈ blocks, b.count name ≤ 1) :
    blocks.flatten.count name = (blocks.filter fun b => decide (name ∈ b)).length := by
  induction blocks with
  | nil => rfl
  | cons b bs ih =>
    have hb := h b (List.mem_cons_self _ _)
    have ih' := ih fun c hc => h c (List.mem_cons_of_mem _ hc)
    rw [List.flatten_cons, List.count_append, ih']
    by_cases hm : name ∈ b
    · have hpos : 0 < b.count name := List.count_pos_iff.mpr hm
      simp only [List.filter_cons, hm, decide_True, if_true, List.length_cons]
      omega
    · simp [List.filter_cons, hm, List.count_eq_zero_of_not_mem hm]

set_option maxRecDepth 100000 in
theorem metroStationsBlocks_count_le_one :
    ∀ block ∈ metroStationsBlocks, ∀ name, name ≠ "Pont de Sèvres" →
      block.2.count name ≤ 1 := by
  intro block hblock name hne
  by_cases hm : name ∈ block.2
  · exact (by decide : ∀ block ∈ metroStationsBlocks, ∀ name ∈ block.2,
      name ≠ "Pont de Sèvres" → block.2.count name ≤ 1) block hblock name hm hne
  · rw [List.count_eq_zero_of_not_mem hm]
    exact Nat.zero_le _

theorem metroStations_eq_blocks :
    metroStations = (metroStationsBlocks.map Prod.snd).flatten := by
  rfl

set_option maxRecDepth 100000 in
/-- C16, amended. The catalog is an ordered list made of the blocks that the comments of
the source delimit, one for each of the lines 1, 4, 6, 9 and 14 and one for stations of
other lines. Leaving `Pont de Sèvres` aside: no block lists a name twice, and a name
occurs in `metroStations` once for each block that lists it, so `Nation` occurs three
times, ten stations shared by two blocks occur twice, and every other name occurs once.
The status listing has one entry per element of `metroStations`, so it contains each name
exactly as many times as `metroStations` does, at least once for each catalog name, and
all the entries of one name carry the same `reserved` flag. -/
theorem catalog_listing_occurrences (st : State) :
    metroStations = (metroStationsBlocks.map Prod.snd).flatten ∧
    metroStationsBlocks.map Prod.fst =
      ["Ligne 1", "Ligne 4", "Ligne 6", "Ligne 9", "Ligne 14",
        "Stations emblématiques d'autres lignes"] ∧
    (∀ block ∈ metroStationsBlocks, ∀ name, name ≠ "Pont de Sèvres" →
      block.2.count name ≤ 1) ∧
    (∀ name, name ≠ "Pont de Sèvres" →
      metroStations.count name =
        (metroStationsBlocks.filter fun block => decide (name ∈ block.2)).length) ∧
    metroStations.count "Nation" = 3 ∧
    (∀ name ∈ ["Gare de Lyon", "Châtelet", "Charles de Gaulle - Étoile", "République",
        "Montparnasse - Bienvenüe", "Raspail", "Denfert-Rochereau", "Trocadéro",
        "Place d'Italie", "Bercy"],
      metroStations.count name = 2) ∧
    (∀ name ∈ metroStations, name ≠ "Pont de Sèvres" →
      name ∉ ["Nation", "Gare de Lyon", "Châtelet", "Charles de Gaulle - Étoile",
        "République", "Montparnasse - Bienvenüe", "Raspail", "Denfert-Rochereau",
        "Trocadéro", "Place d'Italie", "Bercy"] →
      metroStations.count name = 1) ∧
    ∃ listing, (apiStations st).1 = { status := 200, body := Body.stations listing } ∧
      (∀ name, (listing.map StationStatus.name).count name = metroStations.count name) ∧
      (∀ name ∈ metroStations, 1 ≤ (listing.map StationStatus.name).count name) ∧
      (∀ e ∈ listing, ∀ e' ∈ listing, e.name = e'.name → e.reserved = e'.reserved) := by
  refine ⟨metroStations_eq_blocks, rfl, metroStationsBlocks_count_le_one, ?_, by decide,
    by decide, by decide, _, rfl, ?_, ?_, ?_⟩
  · intro name hne
    rw [metroStations_eq_blocks,
      count_flatten_of_count_le_one name _ (by
        intro b hb
        obtain ⟨block, hblock, rfl⟩ := List.mem_map.mp hb
        exact metroStationsBlocks_count_le_one block hblock name hne),
      List.filter_map, List.length_map]
    rfl
  · intro name
    simp [List.map_map, Function.comp_def]
  · intro name hmem
    simp only [List.map_map, Function.comp_def, List.map_id']
    exact List.count_pos_iff.mpr hmem
  · intro e he e' he' hname
    obtain ⟨n, _, rfl⟩ := List.mem_map.mp he
    obtain ⟨n', _, rfl⟩ := List.mem_map.mp he'
    have hn : n = n' := hname
    subst hn
    rfl

theorem JsMap.delete_set_of_find_none {β : Type} (m : JsMap β) {k : JsValue} (v : β)
    (h : JsMap.find m k = none) : JsMap.delete (JsMap.set m k v) k = m := by
  induction m with
  | nil => simp [JsMap.set, JsMap.delete]
  | cons e m ih =>
    obtain ⟨k', v'⟩ := e
    by_cases hk : k' = k
    · simp [JsMap.find, hk] at h
    · simp [JsMap.find, hk] at h
      simp [JsMap.set, JsMap.delete, hk, ih h]

/-- A call of `consume` that is accepted changes what the limiter holds for its key. -/
theorem find_consume_self_ne {now : Nat} {key : JsValue} {l : JsMap RateLimitEntry}
    (h : (consume rateLimiter now key l).1 = true) :
    JsMap.find (consume rateLimiter now key l).2 key ≠ JsMap.find l key := by
  cases hf : JsMap.find l key with
  | none =>
    rw [consume_new now hf, JsMap.find_set_self]
    simp
  | some e =>
    by_cases he : e.windowResetAt ≤ now
    · rw [consume_elapsed hf he, JsMap.find_set_self]
      intro heq
      have hw : now + rateLimiter.duration * 1000 = e.windowResetAt :=
        congrArg RateLimitEntry.windowResetAt (Option.some.inj heq)
      simp only [rateLimiter] at hw
      omega
    · by_cases hz : e.remainingPoints = 0
      · rw [consume_spent hf hz (Nat.lt_of_not_le he)] at h
        cases h
      · have hc : consume rateLimiter now key l =
            (true, JsMap.set l key { e with remainingPoints := e.remainingPoints - 1 }) := by
          simp [consume, hf, he, hz]
        rw [hc, JsMap.find_set_self]
        intro heq
        have hr : e.remainingPoints - 1 = e.remainingPoints :=
          congrArg RateLimitEntry.remainingPoints (Option.some.inj heq)
        omega

/-- C17, reserve/release round trip. In a state whose maps are inverse to each other,
after a reserve request for a station that succeeds, a release of that station with the
valid admin key succeeds and leaves `reservedStations` and `ipReservations` exactly as
they were before the reservation, entry for entry. The limiter is not put back: it is as
the reservation left it, and what it holds for the address differs from before. -/
theorem reserve_release_round_trip (now : Nat) (station clientIP : JsValue) (st : State)
    (_hinv : Inverse st)
    (hok : (apiReserve now station clientIP st).1.status = 200) :
    (apiRelease station validKey (apiReserve now station clientIP st).2).1 = adminOk ∧
    (apiRelease station validKey (apiReserve now station clientIP st).2).2.reservedStations =
      st.reservedStations ∧
    (apiRelease station validKey (apiReserve now station clientIP st).2).2.ipReservations =
      st.ipReservations ∧
    (apiRelease station validKey (apiReserve now station clientIP st).2).2.limiter =
      (consume rateLimiter now clientIP st.limiter).2 ∧
    JsMap.find (apiRelease station validKey (apiReserve now station clientIP st).2).2.limiter
      clientIP ≠ JsMap.find st.limiter clientIP := by
  obtain ⟨hc, hip, hs, h⟩ := apiReserve_of_status_ok hok
  have hf : JsMap.find (apiReserve now station clientIP st).2.reservedStations station =
      some clientIP := by
    rw [h]
    exact JsMap.find_set_self _ _ _
  rw [apiRelease_ok hf, h]
  refine ⟨rfl, ?_, ?_, rfl, ?_⟩
  · exact JsMap.delete_set_of_find_none _ _ hs
  · exact JsMap.delete_set_of_find_none _ _ hip
  · exact find_consume_self_ne hc

/-- Witness for C17: on a fresh process, `Nation` is reserved and released again. -/
theorem reserve_release_round_trip_witness :
    (apiRelease (JsValue.string "Nation") validKey
      (apiReserve 0 (JsValue.string "Nation") (JsValue.string "10.0.0.1")
        State.initial).2).2.reservedStations = [] ∧
    (apiRelease (JsValue.string "Nation") validKey
      (apiReserve 0 (JsValue.string "Nation") (JsValue.string "10.0.0.1")
        State.initial).2).2.ipReservations = [] :=
  have h := reserve_release_round_trip 0 (JsValue.string "Nation") (JsValue.string "10.0.0.1")
    State.initial consistent_initial.inverse (by decide)
  ⟨h.2.1, h.2.2.1⟩

/-! ## The limiter along a run -/

theorem budgetsSpent_set {l : JsMap RateLimitEntry} (h : BudgetsSpent l) (key : JsValue)
    (w : Nat) : BudgetsSpent (JsMap.set l key { remainingPoints := 0, windowResetAt := w }) := by
  intro k e hf
  by_cases hk : k = key
  · subst hk
    rw [JsMap.find_set_self] at hf
    rw [← Option.some.inj hf]
  · rw [JsMap.find_set_ne _ _ hk] at hf
    exact h k e hf

theorem consume_cases (now : Nat) (key : JsValue) (l : JsMap RateLimitEntry)
    (h : BudgetsSpent l) :
    consume rateLimiter now key l = (false, l) ∧ Blocked now key l ∨
    consume rateLimiter now key l =
      (true, JsMap.set l key
        { remainingPoints := 0, windowResetAt := now + rateLimiter.duration * 1000 }) := by
  cases hf : JsMap.find l key with
  | none => exact Or.inr (consume_new now hf)
  | some e =>
    by_cases he : e.windowResetAt ≤ now
    · exact Or.inr (consume_elapsed hf he)
    · exact Or.inl ⟨consume_spent hf (h key e hf) (Nat.lt_of_not_le he),
        e, hf, h key e hf, Nat.lt_of_not_le he⟩

theorem budgetsSpent_consume (now : Nat) (key : JsValue) {l : JsMap RateLimitEntry}
    (h : BudgetsSpent l) : BudgetsSpent (consume rateLimiter now key l).2 := by
  rcases consume_cases now key l h with ⟨hc, _⟩ | hc
  · rw [hc]
    exact h
  · rw [hc]
    exact budgetsSpent_set h key _

theorem consume_blocked {t : Nat} {key : JsValue} {l : JsMap RateLimitEntry}
    (h : Blocked t key l) : consume rateLimiter t key l = (false, l) := by
  obtain ⟨e, hf, hz, ht⟩ := h
  exact consume_spent hf hz ht

theorem blocked_consume {t : Nat} {key : JsValue} {l : JsMap RateLimitEntry}
    (h : Blocked t key l) (now : Nat) (k : JsValue) :
    Blocked t key (consume rateLimiter now k l).2 := by
  obtain ⟨e, hf, hz, ht⟩ := h
  by_cases hk : key = k
  · subst hk
    by_cases he : e.windowResetAt ≤ now
    · rw [consume_elapsed hf he]
      exact ⟨_, JsMap.find_set_self _ _ _, rfl, by
        show t < now + rateLimiter.duration * 1000
        omega⟩
    · rw [consume_spent hf hz (Nat.lt_of_not_le he)]
      exact ⟨e, hf, hz, ht⟩
  · exact ⟨e, by rw [find_consume_ne _ _ _ hk]; exact hf, hz, ht⟩

theorem apiRelease_limiter (station adminKey : JsValue) (st : State) :
    (apiRelease station adminKey st).2.limiter = st.limiter := by
  by_cases hk : adminKey = validKey
  · subst hk
    rcases apiRelease_authorized_cases station st with h | ⟨ip, _, h⟩
    · rw [h]
    · rw [h]
      rfl
  · rw [apiRelease_unauthorized station st hk]

theorem apiResetAll_limiter (adminKey : JsValue) (st : State) :
    (apiResetAll adminKey st).2.limiter = st.limiter := by
  by_cases hk : adminKey = validKey
  · subst hk
    rw [apiResetAll_ok]
    rfl
  · rw [apiResetAll_unauthorized st hk]

theorem apiReserve_limiter (now : Nat) (station clientIP : JsValue) (st : State) :
    (apiReserve now station clientIP st).2.limiter =
      (consume rateLimiter now clientIP st.limiter).2 := by
  rcases apiReserve_cases now station clientIP st with ⟨_, h⟩ | ⟨_, _, _, _, h⟩
  · rw [h]
  · rw [h]
    rfl

/-- A request leaves the limiter as it is or makes one call of `consume`. -/
theorem handle_limiter (r : Request) (st : State) :
    (handle r st).2.limiter = st.limiter ∨
    ∃ now key, (handle r st).2.limiter = (consume rateLimiter now key st.limiter).2 := by
  cases r with
  | stations => exact Or.inl rfl
  | reserve now station clientIP =>
    exact Or.inr ⟨now, clientIP, apiReserve_limiter now station clientIP st⟩
  | release station adminKey => exact Or.inl (apiRelease_limiter station adminKey st)
  | resetAll adminKey => exact Or.inl (apiResetAll_limiter adminKey st)

theorem budgetsSpent_handle (r : Request) {st : State} (h : BudgetsSpent st.limiter) :
    BudgetsSpent (handle r st).2.limiter := by
  rcases handle_limiter r st with h' | ⟨now, key, h'⟩
  · rw [h']
    exact h
  · rw [h']
    exact budgetsSpent_consume now key h

theorem budgetsSpent_run (reqs : List Request) {st : State} (h : BudgetsSpent st.limiter) :
    BudgetsSpent (run reqs st).2.limiter := by
  induction reqs generalizing st with
  | nil => exact h
  | cons r rs ih => exact ih (budgetsSpent_handle r h)

theorem budgetsSpent_initial : BudgetsSpent State.initial.limiter := by
  intro k e hf
  simp [State.initial, JsMap.find] at hf

theorem blocked_handle {t : Nat} {key : JsValue} (r : Request) {st : State}
    (h : Blocked t key st.limiter) : Blocked t key (handle r st).2.limiter := by
  rcases handle_limiter r st with h' | ⟨now, k, h'⟩
  · rw [h']
    exact h
  · rw [h']
    exact blocked_consume h now k

theorem blocked_run {t : Nat} {key : JsValue} (reqs : List Request) {st : State}
    (h : Blocked t key st.limiter) : Blocked t key (run reqs st).2.limiter := by
  induction reqs generalizing st with
  | nil => exact h
  | cons r rs ih => exact ih (blocked_handle r h)

theorem apiReserve_blocked {t : Nat} {clientIP : JsValue} (station : JsValue) {st : State}
    (h : Blocked t clientIP st.limiter) :
    (apiReserve t station clientIP st).1 = rateLimited := by
  rw [apiReserve_reject station (by rw [consume_blocked h])]

/-- In a state whose limiter entries are all spent, a reserve request that gets past the
limiter at time `t₀` blocks its address until `t₀` plus the duration. -/
theorem blocked_of_pass {t₀ t : Nat} {clientIP : JsValue} (station : JsValue) {st : State}
    (hspent : BudgetsSpent st.limiter)
    (hpass : (consume rateLimiter t₀ clientIP st.limiter).1 = true)
    (ht : t < t₀ + rateLimiter.duration * 1000) :
    Blocked t clientIP (apiReserve t₀ station clientIP st).2.limiter := by
  rw [apiReserve_limiter]
  rcases consume_cases t₀ clientIP st.limiter hspent with ⟨hc, _⟩ | hc
  · rw [hc] at hpass
    cases hpass
  · rw [hc]
    exact ⟨_, JsMap.find_set_self _ _ _, rfl, ht⟩

/-- C12, rate limit persists past release. On a running server, an address reserves a
station at time `t₀` and the station is then released with the valid admin key, after
which the address holds no reservation. Every reserve request of that address at a time
before `t₀` + 24 h, for any station, right after the release or after any further
requests, is answered `RateLimited` (429). -/
theorem rate_limit_persists (pre : List Request) (t₀ : Nat) (station clientIP : JsValue)
    (later : List Request) (t : Nat) (station' : JsValue)
    (hok : (apiReserve t₀ station clientIP (run pre State.initial).2).1.status = 200)
    (ht : t < t₀ + rateLimiter.duration * 1000) :
    (apiRelease station validKey
      (apiReserve t₀ station clientIP (run pre State.initial).2).2).1 = adminOk ∧
    clientIP ∉ JsMap.keys (apiRelease station validKey
      (apiReserve t₀ station clientIP (run pre State.initial).2).2).2.ipReservations ∧
    (apiReserve t station' clientIP (apiRelease station validKey
      (apiReserve t₀ station clientIP (run pre State.initial).2).2).2).1 = rateLimited ∧
    (apiReserve t station' clientIP (run later (apiRelease station validKey
      (apiReserve t₀ station clientIP (run pre State.initial).2).2).2).2).1 = rateLimited := by
  obtain ⟨hc, _, _, h⟩ := apiReserve_of_status_ok hok
  have hblocked := blocked_of_pass station (budgetsSpent_run pre budgetsSpent_initial) hc ht
  have hf : JsMap.find (apiReserve t₀ station clientIP
      (run pre State.initial).2).2.reservedStations station = some clientIP := by
    rw [h]
    exact JsMap.find_set_self _ _ _
  have hblocked' : Blocked t clientIP (apiRelease station validKey
      (apiReserve t₀ station clientIP (run pre State.initial).2).2).2.limiter := by
    rw [apiRelease_limiter]
    exact hblocked
  refine ⟨?_, ?_, apiReserve_blocked station' hblocked',
    apiReserve_blocked station' (blocked_run later hblocked')⟩
  · rw [apiRelease_ok hf]
  · rw [apiRelease_ok hf]
    exact (JsMap.find_eq_none_iff _ _).mp (JsMap.find_delete_self _ _)

/-- Witness for C12: `Nation` is reserved at time 0 and released; one hour later the same
address asks for `Bastille`. -/
theorem rate_limit_persists_witness :
    (apiReserve 3600000 (JsValue.string "Bastille") (JsValue.string "10.0.0.1")
      (apiRelease (JsValue.string "Nation") validKey
        (apiReserve 0 (JsValue.string "Nation") (JsValue.string "10.0.0.1")
          (run [] State.initial).2).2).2).1 = rateLimited :=
  (rate_limit_persists [] 0 (JsValue.string "Nation") (JsValue.string "10.0.0.1") []
    3600000 (JsValue.string "Bastille") (by decide) (by decide)).2.2.1

/-- C13, the point is spent whatever the outcome. On a running server, a reserve request
at time `t₀` that gets past the limiter and is then refused with status 400
(`Station invalide`, `Vous avez déjà sélectionné une station` or `Station déjà prise`)
has used the point of its address: every reserve request of that address at a time before
`t₀` + 24 h, for any station, is answered `RateLimited` (429). -/
theorem point_spent_on_failure (pre : List Request) (t₀ : Nat) (station clientIP : JsValue)
    (later : List Request) (t : Nat) (station' : JsValue)
    (hfail : (apiReserve t₀ station clientIP (run pre State.initial).2).1.status = 400)
    (ht : t < t₀ + rateLimiter.duration * 1000) :
    (consume rateLimiter t₀ clientIP (run pre State.initial).2.limiter).1 = true ∧
    ((apiReserve t₀ station clientIP (run pre State.initial).2).1 = invalidSlot ∨
      (apiReserve t₀ station clientIP (run pre State.initial).2).1 = identityAlreadyReserved ∨
      (apiReserve t₀ station clientIP (run pre State.initial).2).1 = slotTaken) ∧
    (apiReserve t station' clientIP
      (apiReserve t₀ station clientIP (run pre State.initial).2).2).1 = rateLimited ∧
    (apiReserve t station' clientIP (run later
      (apiReserve t₀ station clientIP (run pre State.initial).2).2).2).1 = rateLimited := by
  have hc : (consume rateLimiter t₀ clientIP (run pre State.initial).2.limiter).1 = true := by
    cases hc : (consume rateLimiter t₀ clientIP (run pre State.initial).2.limiter).1 with
    | true => rfl
    | false =>
      rw [apiReserve_reject station hc] at hfail
      simp [rateLimited] at hfail
  have hblocked := blocked_of_pass station (budgetsSpent_run pre budgetsSpent_initial) hc ht
  refine ⟨hc, ?_, apiReserve_blocked station' hblocked,
    apiReserve_blocked station' (blocked_run later hblocked)⟩
  cases hi : includes metroStations station with
  | false => exact Or.inl (by rw [apiReserve_invalid hc hi])
  | true =>
    cases hip : JsMap.has (run pre State.initial).2.ipReservations clientIP with
    | true => exact Or.inr (Or.inl (by rw [apiReserve_identity hc hi hip]))
    | false =>
      cases hs : JsMap.has (run pre State.initial).2.reservedStations station with
      | true => exact Or.inr (Or.inr (by rw [apiReserve_taken hc hi hip hs]))
      | false =>
        rw [apiReserve_ok hc hi hip hs] at hfail
        simp [reservedOk] at hfail

/-- Witness for C13: after `10.0.0.1` took `Nation`, `10.0.0.2` asks for `Nation`, is
refused, and one hour later asks for the free station `Bastille`. -/
theorem point_spent_on_failure_witness :
    (apiReserve 5 (JsValue.string "Nation") (JsValue.string "10.0.0.2")
      (run [Request.reserve 0 (JsValue.string "Nation") (JsValue.string "10.0.0.1")]
        State.initial).2).1 = slotTaken ∧
    (apiReserve 3600000 (JsValue.string "Bastille") (JsValue.string "10.0.0.2")
      (apiReserve 5 (JsValue.string "Nation") (JsValue.string "10.0.0.2")
        (run [Request.reserve 0 (JsValue.string "Nation") (JsValue.string "10.0.0.1")]
          State.initial).2).2).1 = rateLimited :=
  ⟨by decide,
    (point_spent_on_failure
      [Request.reserve 0 (JsValue.string "Nation") (JsValue.string "10.0.0.1")] 5
      (JsValue.string "Nation") (JsValue.string "10.0.0.2") [] 3600000
      (JsValue.string "Bastille") (by decide) (by decide)).2.2.1⟩

theorem consumeAll_spent (key : JsValue) (w : Nat) (calls : List (Nat × JsValue))
    (l : JsMap RateLimitEntry)
    (hentry : JsMap.find l key = some { remainingPoints := 0, windowResetAt := w })
    (hwithin : ∀ c ∈ calls, c.2 = key → c.1 < w) :
    JsMap.find (consumeAll calls l).2 key =
      some { remainingPoints := 0, windowResetAt := w } ∧
    ∀ p ∈ calls.zip (consumeAll calls l).1, p.1.2 = key → p.2 = false := by
  induction calls generalizing l with
  | nil => exact ⟨hentry, by simp [consumeAll]⟩
  | cons c cs ih =>
    have hentry' : JsMap.find (consume rateLimiter c.1 c.2 l).2 key =
        some { remainingPoints := 0, windowResetAt := w } := by
      by_cases hk : key = c.2
      · rw [← hk, consume_spent hentry rfl (hwithin c (List.mem_cons_self _ _) hk.symm)]
        exact hentry
      · rw [find_consume_ne _ _ _ hk]
        exact hentry
    have ih' := ih (consume rateLimiter c.1 c.2 l).2 hentry'
      (fun d hd => hwithin d (List.mem_cons_of_mem _ hd))
    refine ⟨ih'.1, ?_⟩
    intro p hp hkey
    simp only [consumeAll, List.zip_cons_cons, List.mem_cons] at hp
    rcases hp with hp | hp
    · subst hp
      have hk : c.2 = key := hkey
      show (consume rateLimiter c.1 c.2 l).1 = false
      rw [hk, consume_spent hentry rfl (hwithin c (List.mem_cons_self _ _) hk)]
    · exact ih'.2 p hp hkey

/-- C14, fixed-window budget with `points: 1, duration: 86400`. For an identity the
limiter has not seen, the first `consume`, at time `t₀`, is accepted. Among any calls
made afterwards, by this and other identities, in which this identity only calls before
`t₀` + 24 h, every call of this identity is rejected; and after them a call of this
identity is accepted when made at `t₀` + 24 h or later, and rejected when made earlier. -/
theorem fixed_window_budget (key : JsValue) (t₀ : Nat) (entries : JsMap RateLimitEntry)
    (calls : List (Nat × JsValue))
    (hfirst : JsMap.find entries key = none)
    (hwithin : ∀ c ∈ calls, c.2 = key → c.1 < t₀ + 86400 * 1000) :
    (consume rateLimiter t₀ key entries).1 = true ∧
    (∀ p ∈ calls.zip (consumeAll calls (consume rateLimiter t₀ key entries).2).1,
      p.1.2 = key → p.2 = false) ∧
    (∀ t, t₀ + 86400 * 1000 ≤ t →
      (consume rateLimiter t key
        (consumeAll calls (consume rateLimiter t₀ key entries).2).2).1 = true) ∧
    (∀ t, t < t₀ + 86400 * 1000 →
      (consume rateLimiter t key
        (consumeAll calls (consume rateLimiter t₀ key entries).2).2).1 = false) := by
  have hc := consume_new t₀ hfirst
  have hentry : JsMap.find (consume rateLimiter t₀ key entries).2 key =
      some { remainingPoints := 0, windowResetAt := t₀ + 86400 * 1000 } := by
    rw [hc]
    exact JsMap.find_set_self _ _ _
  have h := consumeAll_spent key (t₀ + 86400 * 1000) calls _ hentry hwithin
  refine ⟨by rw [hc], h.2, ?_, ?_⟩
  · intro t ht
    rw [consume_elapsed h.1 ht]
  · intro t ht
    rw [consume_spent h.1 rfl ht]

/-- Witness for C14: on a fresh limiter, `10.0.0.1` consumes at time 0, then again one
hour later, between two calls of `10.0.0.2`. -/
theorem fixed_window_budget_witness :
    (consume rateLimiter 0 (JsValue.string "10.0.0.1") []).1 = true ∧
    (consume rateLimiter 86400000 (JsValue.string "10.0.0.1")
      (consumeAll [(5, JsValue.string "10.0.0.2"), (3600000, JsValue.string "10.0.0.1"),
          (90000000, JsValue.string "10.0.0.2")]
        (consume rateLimiter 0 (JsValue.string "10.0.0.1") []).2).2).1 = true :=
  have h := fixed_window_budget (JsValue.string "10.0.0.1") 0 []
    [(5, JsValue.string "10.0.0.2"), (3600000, JsValue.string "10.0.0.1"),
      (90000000, JsValue.string "10.0.0.2")] rfl (by decide)
  ⟨h.1, h.2.2.1 86400000 (by decide)⟩

theorem find_consume_isSome (now : Nat) (key : JsValue) {k : JsValue}
    {l : JsMap RateLimitEntry} (hspent : BudgetsSpent l) (h : ∃ e, JsMap.find l k = some e) :
    ∃ e, JsMap.find (consume rateLimiter now key l).2 k = some e := by
  rcases consume_cases now key l hspent with ⟨hc, _⟩ | hc
  · rw [hc]
    exact h
  · rw [hc]
    by_cases hk : k = key
    · subst hk
      exact ⟨_, JsMap.find_set_self _ _ _⟩
    · rw [JsMap.find_set_ne _ _ hk]
      exact h

theorem holdersLimited_handle (r : Request) {st : State} (hspent : BudgetsSpent st.limiter)
    (h : HoldersLimited st) : HoldersLimited (handle r st).2 := by
  cases r with
  | stations => exact h
  | reserve now station clientIP =>
    simp only [handle]
    rcases apiReserve_cases now station clientIP st with ⟨_, hst⟩ | ⟨hc, _, _, _, hst⟩
    · rw [hst]
      intro ip hip
      exact find_consume_isSome now clientIP hspent (h ip hip)
    · rw [hst]
      intro ip hip
      obtain ⟨e, he, rfl⟩ := List.mem_map.mp hip
      rcases JsMap.mem_set _ he with h' | h'
      · exact find_consume_isSome now clientIP hspent (h _ (List.mem_map.mpr ⟨e, h', rfl⟩))
      · subst h'
        rcases consume_cases now clientIP st.limiter hspent with ⟨hc', _⟩ | hc'
        · rw [hc'] at hc
          cases hc
        · show ∃ e, JsMap.find (consume rateLimiter now clientIP st.limiter).2 clientIP = some e
          rw [hc']
          exact ⟨_, JsMap.find_set_self _ _ _⟩
  | release station adminKey =>
    simp only [handle]
    by_cases hk : adminKey = validKey
    · subst hk
      rcases apiRelease_authorized_cases station st with hst | ⟨holder, _, hst⟩
      · rw [hst]
        exact h
      · rw [hst]
        intro ip hip
        obtain ⟨e, he, rfl⟩ := List.mem_map.mp hip
        exact h _ (List.mem_map.mpr ⟨e, JsMap.mem_delete _ he, rfl⟩)
    · rw [apiRelease_unauthorized station st hk]
      exact h
  | resetAll adminKey =>
    simp only [handle]
    by_cases hk : adminKey = validKey
    · subst hk
      rw [apiResetAll_ok]
      intro ip hip
      simp [ioEmit, JsMap.keys] at hip
    · rw [apiResetAll_unauthorized st hk]
      exact h

theorem holdersLimited_run (reqs : List Request) {st : State}
    (hspent : BudgetsSpent st.limiter) (h : HoldersLimited st) :
    BudgetsSpent (run reqs st).2.limiter ∧ HoldersLimited (run reqs st).2 := by
  induction reqs generalizing st with
  | nil => exact ⟨hspent, h⟩
  | cons r rs ih => exact ih (budgetsSpent_handle r hspent) (holdersLimited_handle r hspent h)

theorem holdersLimited_initial : HoldersLimited State.initial := by
  intro ip hip
  simp [State.initial, JsMap.keys] at hip

/-- A holder of a reservation whose window is open is rejected by the limiter. -/
theorem apiReserve_holder {now : Nat} {clientIP : JsValue} (station : JsValue) {st : State}
    (hspent : BudgetsSpent st.limiter) (h : HoldersLimited st)
    (hip : clientIP ∈ JsMap.keys st.ipReservations)
    (hopen : windowOpen now clientIP st.limiter = true) :
    (apiReserve now station clientIP st).1 = rateLimited := by
  obtain ⟨e, he⟩ := h clientIP hip
  have hlt : now < e.windowResetAt := by simpa [windowOpen, he] using hopen
  exact apiReserve_blocked station ⟨e, he, hspent _ _ he, hlt⟩

theorem apiReserve_ne_identity {now : Nat} {station clientIP : JsValue} {st : State}
    (hip : clientIP ∉ JsMap.keys st.ipReservations) :
    (apiReserve now station clientIP st).1 ≠ identityAlreadyReserved := by
  have hhas := has_of_not_mem_keys hip
  cases hc : (consume rateLimiter now clientIP st.limiter).1 with
  | false =>
    rw [apiReserve_reject station hc]
    simp [rateLimited, identityAlreadyReserved]
  | true =>
    cases hi : includes metroStations station with
    | false =>
      rw [apiReserve_invalid hc hi]
      simp [invalidSlot, identityAlreadyReserved]
    | true =>
      cases hs : JsMap.has st.reservedStations station with
      | true =>
        rw [apiReserve_taken hc hi hhas hs]
        simp [slotTaken, identityAlreadyReserved]
      | false =>
        rw [apiReserve_ok hc hi hhas hs]
        simp [reservedOk, identityAlreadyReserved]

theorem run_no_identity_error (reqs : List Request) (st : State)
    (hspent : BudgetsSpent st.limiter) (h : HoldersLimited st)
    (hopen : noWindowElapsed reqs st = true) :
    identityAlreadyReserved ∉ (run reqs st).1 := by
  induction reqs generalizing st with
  | nil => simp [run]
  | cons r rs ih =>
    have hspent' := budgetsSpent_handle r hspent
    have h' := holdersLimited_handle r hspent h
    have hrest : noWindowElapsed rs (handle r st).2 = true := by
      cases r <;> simp_all [noWindowElapsed]
    have hhead : (handle r st).1 ≠ identityAlreadyReserved := by
      cases r with
      | stations => simp [handle, apiStations, identityAlreadyReserved]
      | reserve now station clientIP =>
        have ho : windowOpen now clientIP st.limiter = true := by
          simp only [noWindowElapsed, Bool.and_eq_true] at hopen
          exact hopen.1
        simp only [handle]
        by_cases hip : clientIP ∈ JsMap.keys st.ipReservations
        · rw [apiReserve_holder station hspent h hip ho]
          simp [rateLimited, identityAlreadyReserved]
        · exact apiReserve_ne_identity hip
      | release station adminKey =>
        simp only [handle]
        by_cases hk : adminKey = validKey
        · subst hk
          rcases apiRelease_authorized_cases station st with hst | ⟨holder, _, hst⟩ <;>
            rw [hst] <;> simp [notReserved, adminOk, identityAlreadyReserved]
        · rw [apiRelease_unauthorized station st hk]
          simp [authError, identityAlreadyReserved]
      | resetAll adminKey =>
        simp only [handle]
        by_cases hk : adminKey = validKey
        · subst hk
          rw [apiResetAll_ok]
          simp [adminOk, identityAlreadyReserved]
        · rw [apiResetAll_unauthorized st hk]
          simp [authError, identityAlreadyReserved]
    simp only [run, List.mem_cons, not_or]
    exact ⟨fun heq => hhead heq.symm, ih _ hspent' h' hrest⟩

/-- C18, `IdentityAlreadyReserved` is out of reach inside the window. In a run from the
initial state in which no reserve request comes from an address whose 24 h window has
elapsed: every address that holds a reservation has a limiter entry with no points left;
no request of the run is answered `Vous avez déjà sélectionné une station`; and a further
reserve request of an address that holds a reservation, its window still open, is
answered `RateLimited` (429). -/
theorem identity_error_unreachable (reqs : List Request)
    (hopen : noWindowElapsed reqs State.initial = true) :
    (∀ ip ∈ JsMap.keys (run reqs State.initial).2.ipReservations,
      ∃ e, JsMap.find (run reqs State.initial).2.limiter ip = some e ∧
        e.remainingPoints = 0) ∧
    identityAlreadyReserved ∉ (run reqs State.initial).1 ∧
    (∀ now station clientIP,
      clientIP ∈ JsMap.keys (run reqs State.initial).2.ipReservations →
      windowOpen now clientIP (run reqs State.initial).2.limiter = true →
      (apiReserve now station clientIP (run reqs State.initial).2).1 = rateLimited) := by
  have hinv := holdersLimited_run reqs budgetsSpent_initial holdersLimited_initial
  refine ⟨?_, run_no_identity_error reqs _ budgetsSpent_initial holdersLimited_initial hopen,
    ?_⟩
  · intro ip hip
    obtain ⟨e, he⟩ := hinv.2 ip hip
    exact ⟨e, he, hinv.1 _ _ he⟩
  · intro now station clientIP hip ho
    exact apiReserve_holder station hinv.1 hinv.2 hip ho

/-- Witness for C18: an address reserves `Nation` and asks for `Bastille` one second
later; a second address asks for `Nation` in between. -/
theorem identity_error_unreachable_witness :
    identityAlreadyReserved ∉
      (run [Request.reserve 0 (JsValue.string "Nation") (JsValue.string "10.0.0.1"),
        Request.reserve 500 (JsValue.string "Nation") (JsValue.string "10.0.0.2"),
        Request.reserve 1000 (JsValue.string "Bastille") (JsValue.string "10.0.0.1")]
        State.initial).1 :=
  (identity_error_unreachable
    [Request.reserve 0 (JsValue.string "Nation") (JsValue.string "10.0.0.1"),
      Request.reserve 500 (JsValue.string "Nation") (JsValue.string "10.0.0.2"),
      Request.reserve 1000 (JsValue.string "Bastille") (JsValue.string "10.0.0.1")]
    (by decide)).2.1

end Party
